import Mathlib

/-!
Verification development for `spanet/network/jet_reconstruction/jet_reconstruction_validation.py`.

The module computes validation metrics and losses for the SPANet jet-assignment
network.  We give a shallow embedding of its functions:

* `computeMetrics` embeds `JetReconstructionValidation.compute_metrics`,
* `computeValidationLosses` embeds `JetReconstructionValidation.compute_validation_losses`,
* `validationStep` / `testStep` embed `validation_step` / `test_step`.

numpy / torch tensors are embedded as nested lists; floating-point scalars that
can be non-finite are embedded by `RVal` (a rational together with NaN and
signed-infinity points); metric values are embedded by `Val` (a rational or
NaN, the value of an empty `mean`).  Python dictionaries keyed by the format
strings `"jet/accuracy_{i}_of_{j}"`, `"particle/accuracy_{i}_of_{j}"`,
`"particle/{name}"`, `"validation_accuracy"` and the `"Purity/"`-prefixed keys
of the evaluator are embedded as association lists over the inductive key type
`MetricKey`, whose constructors are in bijection with those (injective) format
strings.
-/

namespace SpanetValidation

/-- Value of a validation metric: a real (rational) number or NaN, the result
of `numpy.mean` on an empty selection (the `RuntimeWarning` is suppressed in
`compute_metrics`, so the NaN value is kept). -/
inductive Val where
  | nan : Val
  | num (q : ℚ) : Val
deriving DecidableEq

/-- `numpy.isnan` on a metric value. -/
def Val.isnan : Val → Bool
  | .nan => true
  | .num _ => false

/-- Keys of the metrics dictionary built by `compute_metrics` and
`validation_step`.  Each constructor stands for one of the (injective) python
format strings producing the dictionary keys. -/
inductive MetricKey where
  /-- the key `"jet/accuracy_{i}_of_{j}"` -/
  | jetAccuracy (i j : Nat)
  /-- the key `"particle/accuracy_{i}_of_{j}"` -/
  | particleAccuracy (i j : Nat)
  /-- the key `"particle/{name}"` for the four `particle_metrics` entries -/
  | particleMetric (name : String)
  /-- the key `"validation_accuracy"` -/
  | validationAccuracy
  /-- a `"Purity/"`-prefixed key coming from `SymmetricEvaluator.full_report_string` -/
  | purity (name : String)
deriving DecidableEq

/-- Arguments of `compute_metrics` together with the surrounding model state it
reads (`self.event_permutation_tensor`).  `jet_predictions` and
`stacked_targets` are lists (indexed by target) of `batch_size × num_jets`
integer arrays, `particle_scores` is a `num_targets × batch_size` float array,
`stacked_masks` a `num_targets × batch_size` boolean array. -/
structure MetricsInput where
  eventPermutationGroup : List (List Nat)
  jetPredictions : List (List (List Int))
  particleScores : List (List ℚ)
  stackedTargets : List (List (List Int))
  stackedMasks : List (List Bool)
deriving DecidableEq

/-- `num_targets, batch_size = stacked_masks.shape` (first component). -/
def numTargets (inp : MetricsInput) : Nat := inp.stackedMasks.length

/-- `num_targets, batch_size = stacked_masks.shape` (second component). -/
def batchSize (inp : MetricsInput) : Nat := (inp.stackedMasks.getD 0 []).length

/-- `particle_predictions = particle_scores >= 0.5`. -/
def particlePredictions (inp : MetricsInput) : List (List Bool) :=
  inp.particleScores.map (fun row => row.map (fun s => decide ((1 : ℚ)/2 ≤ s)))

/-- One entry of the summed `jet_accuracies` matrix: for permutation `perm`
and event `b`, the number of targets `j` with
`np.all(jet_predictions[j] == stacked_targets[perm][j], axis=1)[b]`. -/
def jetAccCount (inp : MetricsInput) (perm : List Nat) (b : Nat) : Nat :=
  (inp.jetPredictions.zip (perm.map (fun p => inp.stackedTargets.getD p []))).countP
    (fun pt => decide (pt.1.getD b [] = pt.2.getD b []))

/-- One entry of the summed `particle_accuracies` matrix: for permutation
`perm` and event `b`, the number of targets `j` with
`(stacked_masks[perm] == particle_predictions)[j][b]`. -/
def particleAccCount (inp : MetricsInput) (perm : List Nat) (b : Nat) : Nat :=
  ((perm.map (fun p => inp.stackedMasks.getD p [])).zip (particlePredictions inp)).countP
    (fun mp => decide (mp.1.getD b false = mp.2.getD b false))

/-- Column `b` of the summed `jet_accuracies` matrix (one count per
permutation of the event permutation group). -/
def jetAccCounts (inp : MetricsInput) (b : Nat) : List Nat :=
  inp.eventPermutationGroup.map (fun perm => jetAccCount inp perm b)

/-- `jet_accuracies.max(0)` at event `b`. -/
def jetBest (inp : MetricsInput) (b : Nat) : Nat :=
  (jetAccCounts inp b).foldr max 0

/-- `particle_accuracies.max(0)` at event `b`. -/
def particleBest (inp : MetricsInput) (b : Nat) : Nat :=
  (inp.eventPermutationGroup.map (fun perm => particleAccCount inp perm b)).foldr max 0

/-- `numpy.argmax` on a vector: index of the first occurrence of the maximal
entry. -/
def argmaxIdx (l : List Nat) : Nat :=
  (List.range l.length).foldl (fun best i => if l.getD best 0 < l.getD i 0 then i else best) 0

/-- `jet_accuracies.argmax(0)` at event `b` (used to build
`chosen_permutations`). -/
def chosenPermIdx (inp : MetricsInput) (b : Nat) : Nat :=
  argmaxIdx (jetAccCounts inp b)

/-- `permuted_masks = torch.gather(stacked_masks, 0, chosen_permutations)`:
entry `[j][b]` is `stacked_masks[group[argmax_b][j]][b]`. -/
def permutedMasks (inp : MetricsInput) : List (List Bool) :=
  (List.range (numTargets inp)).map (fun j =>
    (List.range (batchSize inp)).map (fun b =>
      (inp.stackedMasks.getD
        ((inp.eventPermutationGroup.getD (chosenPermIdx inp b) []).getD j 0) []).getD b false))

/-- `num_particles = stacked_masks.sum(0)` at event `b`. -/
def numParticles (inp : MetricsInput) (b : Nat) : Nat :=
  inp.stackedMasks.countP (fun row => row.getD b false)

/-- The events selected by `num_particles == j`, in batch order. -/
def eventsWithParticles (inp : MetricsInput) (j : Nat) : List Nat :=
  (List.range (batchSize inp)).filter (fun b => decide (numParticles inp b = j))

/-- `numpy.mean` of a boolean vector: fraction of `True` entries, NaN when the
vector is empty. -/
def meanBool (l : List Bool) : Val :=
  if l.length = 0 then Val.nan
  else Val.num ((l.countP (fun x => x) : ℚ) / (l.length : ℚ))

/-- The value stored at key `jet/accuracy_{i}_of_{j}`:
`(jet_accuracies[num_particles == j] >= i).mean()`. -/
def jetAccMetricVal (inp : MetricsInput) (i j : Nat) : Val :=
  meanBool ((eventsWithParticles inp j).map (fun b => decide (i ≤ jetBest inp b)))

/-- The value stored at key `particle/accuracy_{i}_of_{j}`:
`(particle_accuracies[num_particles == j] >= i).mean()`. -/
def particleAccMetricVal (inp : MetricsInput) (i j : Nat) : Val :=
  meanBool ((eventsWithParticles inp j).map (fun b => decide (i ≤ particleBest inp b)))

/-- The index pairs `(i, j)` enumerated by the dictionary comprehension
`for j in range(1, num_targets + 1) for i in range(1, j + 1)`. -/
def accuracyPairs (n : Nat) : List (Nat × Nat) :=
  (List.range n).flatMap (fun j0 => (List.range (j0 + 1)).map (fun i0 => (i0 + 1, j0 + 1)))

/-- The `jet/accuracy_{i}_of_{j}` entries of the metrics dictionary. -/
def jetAccuracyEntries (inp : MetricsInput) : List (MetricKey × Val) :=
  (accuracyPairs (numTargets inp)).map
    (fun ij => (MetricKey.jetAccuracy ij.1 ij.2, jetAccMetricVal inp ij.1 ij.2))

/-- The `particle/accuracy_{i}_of_{j}` entries of the metrics dictionary. -/
def particleAccuracyEntries (inp : MetricsInput) : List (MetricKey × Val) :=
  (accuracyPairs (numTargets inp)).map
    (fun ij => (MetricKey.particleAccuracy ij.1 ij.2, particleAccMetricVal inp ij.1 ij.2))

/-- `particle_targets = permuted_masks.ravel()`. -/
def flatPermutedMasks (inp : MetricsInput) : List Bool := (permutedMasks inp).flatten

/-- `particle_predictions.ravel()`. -/
def flatParticlePredictions (inp : MetricsInput) : List Bool := (particlePredictions inp).flatten

/-- `sklearn.metrics.accuracy_score` on boolean vectors of equal length:
fraction of positions where target and prediction agree. -/
def accuracy_score (t p : List Bool) : Val :=
  Val.num (((t.zip p).countP (fun x => decide (x.1 = x.2)) : ℚ) / (t.length : ℚ))

/-- `sklearn.metrics.recall_score` on boolean vectors: true positives over
actual positives, `0` when there is no actual positive (the documented
`zero_division` default). -/
def recall_score (t p : List Bool) : Val :=
  Val.num (if t.countP (fun x => x) = 0 then 0
           else (((t.zip p).countP (fun x => x.1 && x.2) : ℚ) / (t.countP (fun x => x) : ℚ)))

/-- The `specificity` entry of `particle_metrics`:
`lambda t, p: sk_metrics.recall_score(~t, ~p)`. -/
def specificity_score (t p : List Bool) : Val :=
  recall_score (t.map (fun x => !x)) (p.map (fun x => !x))

/-- `sklearn.metrics.f1_score` on boolean vectors:
`2 TP / (2 TP + FP + FN)`, `0` when the denominator vanishes. -/
def f1_score (t p : List Bool) : Val :=
  let tp := (t.zip p).countP (fun x => x.1 && x.2)
  let fp := (t.zip p).countP (fun x => !x.1 && x.2)
  let fn := (t.zip p).countP (fun x => x.1 && !x.2)
  Val.num (if 2 * tp + fp + fn = 0 then 0
           else ((2 * tp : Nat) : ℚ) / ((2 * tp + fp + fn : Nat) : ℚ))

/-- The four `particle/{name}` entries added by the loop over
`self.particle_metrics` (the `particle_score_metrics` dictionary is empty, so
its loop adds nothing). -/
def particleMetricEntries (inp : MetricsInput) : List (MetricKey × Val) :=
  [(MetricKey.particleMetric "accuracy",
      accuracy_score (flatPermutedMasks inp) (flatParticlePredictions inp)),
   (MetricKey.particleMetric "sensitivity",
      recall_score (flatPermutedMasks inp) (flatParticlePredictions inp)),
   (MetricKey.particleMetric "specificity",
      specificity_score (flatPermutedMasks inp) (flatParticlePredictions inp)),
   (MetricKey.particleMetric "f_score",
      f1_score (flatPermutedMasks inp) (flatParticlePredictions inp))]

/-- Dictionary lookup `metrics[key]` on the association-list embedding (all
keys inserted by the module are pairwise distinct, so first-match lookup
agrees with the python dictionary). -/
def lookupKey (k : MetricKey) : List (MetricKey × Val) → Option Val
  | [] => none
  | kv :: rest => if kv.1 = k then some kv.2 else lookupKey k rest

/-- `compute_metrics`: the metrics dictionary in insertion order.  The final
statement `metrics["validation_accuracy"] = metrics[f"jet/accuracy_.._of_.."]`
is a lookup of the dictionary built so far; when `num_targets = 0` that key is
absent and python would raise `KeyError`, embedded by `none`. -/
def computeMetrics (inp : MetricsInput) : Option (List (MetricKey × Val)) :=
  let m := jetAccuracyEntries inp ++ particleAccuracyEntries inp ++ particleMetricEntries inp
  match lookupKey (MetricKey.jetAccuracy (numTargets inp) (numTargets inp)) m with
  | some v => some (m ++ [(MetricKey.validationAccuracy, v)])
  | none => none

/-- A floating-point scalar appearing in the loss tensors: finite (rational)
value, NaN, or a signed infinity. -/
inductive RVal where
  | nan : RVal
  | inf : RVal
  | ninf : RVal
  | fin (q : ℚ) : RVal
deriving DecidableEq

/-- `torch.isnan` on a scalar. -/
def RVal.isnan : RVal → Bool
  | .nan => true
  | _ => false

/-- `torch.isinf` on a scalar (true for both signed infinities). -/
def RVal.isinf : RVal → Bool
  | .inf => true
  | .ninf => true
  | _ => false

/-- IEEE-style addition of two scalars. -/
def RVal.add : RVal → RVal → RVal
  | .nan, _ => .nan
  | .inf, .nan => .nan
  | .inf, .ninf => .nan
  | .inf, _ => .inf
  | .ninf, .nan => .nan
  | .ninf, .inf => .nan
  | .ninf, _ => .ninf
  | .fin _, .nan => .nan
  | .fin _, .inf => .inf
  | .fin _, .ninf => .ninf
  | .fin a, .fin b => .fin (a + b)

/-- IEEE-style multiplication of a scalar by a finite weight. -/
def RVal.mulQ (a : ℚ) : RVal → RVal
  | .nan => .nan
  | .inf => if 0 < a then .inf else if a < 0 then .ninf else .nan
  | .ninf => if 0 < a then .ninf else if a < 0 then .inf else .nan
  | .fin q => .fin (a * q)

/-- Division of a scalar by a (positive) natural denominator, as produced by
the clamped mask count. -/
def RVal.divNat (x : RVal) (n : Nat) : RVal :=
  match x with
  | .nan => .nan
  | .inf => .inf
  | .ninf => .ninf
  | .fin q => .fin (q / (n : ℚ))

/-- `tensor.sum()` over a vector of scalars. -/
def sumR (l : List RVal) : RVal := l.foldr RVal.add (.fin 0)

/-- `tensor.mean()` over a (flattened) vector of scalars: NaN on the empty
tensor. -/
def meanR (l : List RVal) : RVal :=
  if l.length = 0 then .nan else RVal.divNat (sumR l) l.length

/-- A python exception: `ValueError` (raised explicitly by the module) or
`RuntimeError` (raised by `torch.cat` on an empty list). -/
inductive PyError where
  | valueError (msg : String)
  | runtimeError (msg : String)
deriving DecidableEq

/-- Arguments and surrounding state read by `compute_validation_losses`.
`symmetricLosses` and `bestIndices` are the two results of
`self.symmetric_losses(...)` (computed outside this module): a
`num_targets × 2 × batch_size` tensor of per-target
(assignment, detection) losses and the per-event index of the minimising
permutation.  `targetMasks` is `torch.stack([target.mask for target in
batch.assignment_targets])`.  The `*Scale` fields are the corresponding
`self.options.*_loss_scale` options; the weight tensors and
`numVectors = batch.num_vectors` feed the optional balancing. -/
structure LossInput where
  symmetricLosses : List (List (List RVal))
  bestIndices : List Nat
  eventPermutationGroup : List (List Nat)
  targetMasks : List (List Bool)
  balanceParticles : Bool
  balanceJets : Bool
  particleIndexTensor : List Nat
  particleWeightsTensor : List ℚ
  jetWeightsTensor : List ℚ
  numVectors : List Nat
  assignmentLossScale : ℚ
  detectionLossScale : ℚ
  klLossScale : ℚ
  regressionLossScale : ℚ
  classificationLossScale : ℚ
  klLosses : List RVal
  regressionLosses : List RVal
  classificationLosses : List RVal
deriving DecidableEq

/-- `masks = torch.gather(masks, 0, permutations)` where
`permutations = self.event_permutation_tensor[best_indices].T`:
entry `[j][b]` is `target_masks[group[best_indices[b]][j]][b]`. -/
def permutedLossMasks (inp : LossInput) : List (List Bool) :=
  (List.range inp.targetMasks.length).map (fun j =>
    (List.range inp.bestIndices.length).map (fun b =>
      (inp.targetMasks.getD
        ((inp.eventPermutationGroup.getD (inp.bestIndices.getD b 0) []).getD j 0) []).getD b false))

/-- `class_indices = (masks * self.particle_index_tensor.unsqueeze(1)).sum(0)`
at event `b` (using the permuted masks). -/
def classIndices (inp : LossInput) (b : Nat) : Nat :=
  ((permutedLossMasks inp).zip inp.particleIndexTensor).foldr
    (fun rp acc => (if rp.1.getD b false then rp.2 else 0) + acc) 0

/-- The per-event factor contributed by `self.balance_particles`. -/
def particleFactor (inp : LossInput) (b : Nat) : ℚ :=
  inp.particleWeightsTensor.getD (classIndices inp b) 0

/-- The per-event factor contributed by `self.balance_jets`:
`self.jet_weights_tensor[batch.num_vectors]`. -/
def jetFactor (inp : LossInput) (b : Nat) : ℚ :=
  inp.jetWeightsTensor.getD (inp.numVectors.getD b 0) 0

/-- The per-event factor list of `self.balance_particles`. -/
def particleFactors (inp : LossInput) : List ℚ :=
  (List.range inp.bestIndices.length).map (fun b => particleFactor inp b)

/-- The per-event factor list of `self.balance_jets`. -/
def jetFactors (inp : LossInput) : List ℚ :=
  (List.range inp.bestIndices.length).map (fun b => jetFactor inp b)

/-- `weights = torch.ones_like(symmetric_losses)`. -/
def onesLike (xs : List (List (List RVal))) : List (List (List ℚ)) :=
  xs.map (fun mat => mat.map (fun row => row.map (fun _ => (1 : ℚ))))

/-- Broadcast multiplication of a `num_targets × 2 × batch_size` weight tensor
by a per-event factor vector (`weights *= factor`). -/
def mulBroadcast (w : List (List (List ℚ))) (f : List ℚ) : List (List (List ℚ)) :=
  w.map (fun mat => mat.map (fun row => List.zipWith (fun a c => a * c) row f))

/-- The weight tensor after the two optional balancing steps. -/
def lossWeights (inp : LossInput) : List (List (List ℚ)) :=
  let w0 := onesLike inp.symmetricLosses
  let w1 := if inp.balanceParticles then mulBroadcast w0 (particleFactors inp) else w0
  if inp.balanceJets then mulBroadcast w1 (jetFactors inp) else w1

/-- `torch.clamp(masks.sum(-1), 1, None)` per target row. -/
def maskDenoms (inp : LossInput) : List Nat :=
  (permutedLossMasks inp).map (fun row => max (row.countP (fun x => x)) 1)

/-- `(weights * symmetric_losses).sum(-1)`: the `num_targets × 2` tensor of
weighted event sums. -/
def weightedSums (inp : LossInput) : List (List RVal) :=
  List.zipWith
    (fun wMat lMat => List.zipWith (fun w l => sumR (List.zipWith RVal.mulQ w l)) wMat lMat)
    (lossWeights inp) inp.symmetricLosses

/-- `symmetric_losses = (weights * symmetric_losses).sum(-1) /
torch.clamp(masks.sum(-1), 1, None)`: the aggregated `num_targets × 2`
loss tensor. -/
def aggregatedLosses (inp : LossInput) : List (List RVal) :=
  List.zipWith (fun row d => row.map (fun x => RVal.divNat x d))
    (weightedSums inp) (maskDenoms inp)

/-- `assignment_loss, detection_loss = torch.unbind(symmetric_losses, 1)`
(first component). -/
def assignmentLoss (inp : LossInput) : List RVal :=
  (aggregatedLosses inp).map (fun row => row.getD 0 .nan)

/-- `assignment_loss, detection_loss = torch.unbind(symmetric_losses, 1)`
(second component). -/
def detectionLoss (inp : LossInput) : List RVal :=
  (aggregatedLosses inp).map (fun row => row.getD 1 .nan)

/-- Modelled from the spec: `add_kl_loss` is defined outside this module (on
`JetReconstructionNetwork`); per the spec's description of the loss
aggregation it appends the KL loss term to the running list of loss
components. -/
def add_kl_loss (total : List (List RVal)) (kl : List RVal) : List (List RVal) :=
  total ++ [kl]

/-- Modelled from the spec: `add_regression_loss` is defined outside this
module; it appends the regression loss term to the running list of loss
components. -/
def add_regression_loss (total : List (List RVal)) (reg : List RVal) : List (List RVal) :=
  total ++ [reg]

/-- Modelled from the spec: `add_classification_loss` is defined outside this
module; it appends the classification loss term to the running list of loss
components. -/
def add_classification_loss (total : List (List RVal)) (cls : List RVal) : List (List RVal) :=
  total ++ [cls]

/-- The `total_loss` list built by the chain of scale checks in
`compute_validation_losses`. -/
def totalLossComponents (inp : LossInput) : List (List RVal) :=
  let t0 : List (List RVal) := []
  let t1 := if 0 < inp.assignmentLossScale then t0 ++ [assignmentLoss inp] else t0
  let t2 := if 0 < inp.detectionLossScale then t1 ++ [detectionLoss inp] else t1
  let t3 := if 0 < inp.klLossScale then add_kl_loss t2 inp.klLosses else t2
  let t4 := if 0 < inp.regressionLossScale then add_regression_loss t3 inp.regressionLosses else t3
  if 0 < inp.classificationLossScale then add_classification_loss t4 inp.classificationLosses else t4

/-- `compute_validation_losses`: after aggregating the symmetric losses it
raises `ValueError` on a NaN assignment loss, then on an infinite assignment
loss; otherwise it concatenates the enabled loss components
(`torch.cat` raises `RuntimeError` when none is enabled) and returns
`total_loss.mean()`. -/
def computeValidationLosses (inp : LossInput) : Except PyError RVal :=
  let aLoss := assignmentLoss inp
  if aLoss.any RVal.isnan then
    .error (.valueError "Assignment loss has diverged!")
  else if aLoss.any RVal.isinf then
    .error (.valueError "Assignment targets contain a collision.")
  else
    let comps := totalLossComponents inp
    if comps.isEmpty then .error (.runtimeError "torch.cat(): expected a non-empty list of Tensors")
    else .ok (meanR comps.flatten)

/-- `prediction[:, indices]` for one event row: the values of the row at the
listed column indices. -/
def gatherRow (idxs : List Nat) (row : List Int) : List Int :=
  idxs.map (fun k => row.getD k 0)

/-- Writing a vector of values back into a row at the listed column indices
(the assignment `prediction[:, indices] = ...` for one event row). -/
def scatterRow (row : List Int) (idxs : List Nat) (vals : List Int) : List Int :=
  (idxs.zip vals).foldl (fun r iv => r.set iv.1 iv.2) row

/-- `prediction[:, indices] = np.sort(prediction[:, indices])` for one event
row: sort the values found at `indices` ascending and write them back in
index order. -/
def sortColumns (idxs : List Nat) (row : List Int) : List Int :=
  scatterRow row idxs (List.insertionSort (fun a b : Int => a ≤ b) (gatherRow idxs row))

/-- The inner loop `for indices in decoder.permutation_indices: if
len(indices) > 1: ...` applied to one event row. -/
def applyGroupsRow (groups : List (List Nat)) (row : List Int) : List Int :=
  groups.foldl (fun r idxs => if 1 < idxs.length then sortColumns idxs r else r) row

/-- The whole sorting phase of `validation_step`: `zip(arrays,
self.branch_decoders)` truncates at the shorter list, and targets beyond the
decoder list pass through unchanged. -/
def sortTransform : List (List (List Int)) → List (List (List Nat)) → List (List (List Int))
  | [], _ => []
  | ms, [] => ms
  | m :: ms, gs :: rest => m.map (applyGroupsRow gs) :: sortTransform ms rest

/-- The inputs of `validation_step` that feed the metrics dictionary:
the prediction-step outputs and stacked targets (a `MetricsInput`), the
`decoder.permutation_indices` list of each branch decoder, and the
`"Purity/"`-prefixed report of `self.evaluator.full_report_string`
(computed outside this module, taken as an opaque input). -/
structure ValidationInput where
  eventPermutationGroup : List (List Nat)
  jetPredictions : List (List (List Int))
  particleScores : List (List ℚ)
  stackedTargets : List (List (List Int))
  stackedMasks : List (List Bool)
  permutationIndices : List (List (List Nat))
  purityMetrics : List (String × Val)
deriving DecidableEq

/-- The metrics dictionary produced by `validation_step`: the purity report,
updated with the result of `compute_metrics` applied to the sorted
predictions and targets.  `none` embeds a raised `KeyError`
(`num_targets = 0`). -/
def validationStep (vi : ValidationInput) (batchIdx : Nat) :
    Option (List (MetricKey × Val)) :=
  let _ := batchIdx
  (computeMetrics
    { eventPermutationGroup := vi.eventPermutationGroup
      jetPredictions := sortTransform vi.jetPredictions vi.permutationIndices
      particleScores := vi.particleScores
      stackedTargets := sortTransform vi.stackedTargets vi.permutationIndices
      stackedMasks := vi.stackedMasks }).map
    (fun m => (vi.purityMetrics.map (fun kv => (MetricKey.purity kv.1, kv.2))) ++ m)

/-- The metric entries actually logged by the final loop of
`validation_step`: `if not np.isnan(value): self.log(name, value, ...)`. -/
def validationStepLogs (vi : ValidationInput) (batchIdx : Nat) :
    Option (List (MetricKey × Val)) :=
  (validationStep vi batchIdx).map (fun m => m.filter (fun kv => !kv.2.isnan))

/-- `test_step`: `return self.validation_step(batch, batch_idx)`. -/
def testStep (vi : ValidationInput) (batchIdx : Nat) :
    Option (List (MetricKey × Val)) :=
  validationStep vi batchIdx

/-- Disjointness of two index groups (no shared column index). -/
def DisjointIdx (a b : List Nat) : Prop := ∀ i ∈ a, i ∉ b

/-! ### Concrete inputs used by the witness theorems -/

/-- A one-target, one-event batch with a perfect prediction and a particle
score exactly at the `0.5` threshold. -/
def mInp1 : MetricsInput :=
  { eventPermutationGroup := [[0]]
    jetPredictions := [[[2, 4]]]
    particleScores := [[(1 : ℚ)/2]]
    stackedTargets := [[[2, 4]]]
    stackedMasks := [[true]] }

/-- A two-target, one-event batch (both targets present), whose metrics
dictionary therefore has an empty `num_particles == 1` bin, i.e. a NaN
metric value. -/
def vInp1 : ValidationInput :=
  { eventPermutationGroup := [[0, 1]]
    jetPredictions := [[[2, 4]], [[5, 7]]]
    particleScores := [[1], [1]]
    stackedTargets := [[[2, 4]], [[5, 7]]]
    stackedMasks := [[true], [true]]
    permutationIndices := [[], []]
    purityMetrics := [] }

/-- A one-target, one-event batch whose single branch decoder lists the
permutation-index group `[0, 1]`. -/
def vSortA : ValidationInput :=
  { eventPermutationGroup := [[0]]
    jetPredictions := [[[3, 5]]]
    particleScores := [[1]]
    stackedTargets := [[[3, 5]]]
    stackedMasks := [[true]]
    permutationIndices := [[[0, 1]]]
    purityMetrics := [] }

/-- `vSortA` with the two symmetric jet slots of both its prediction and its
true-jet target swapped. -/
def vSortB : ValidationInput :=
  { eventPermutationGroup := [[0]]
    jetPredictions := [[[5, 3]]]
    particleScores := [[1]]
    stackedTargets := [[[5, 3]]]
    stackedMasks := [[true]]
    permutationIndices := [[[0, 1]]]
    purityMetrics := [] }

/-- A two-target, one-event loss input whose aggregated assignment loss is
`[NaN, +inf]`. -/
def lInpNanInf : LossInput :=
  { symmetricLosses := [[[.nan], [.fin 0]], [[.inf], [.fin 0]]]
    bestIndices := [0]
    eventPermutationGroup := [[0, 1]]
    targetMasks := [[true], [true]]
    balanceParticles := false
    balanceJets := false
    particleIndexTensor := [1, 2]
    particleWeightsTensor := [1, 1, 1, 1]
    jetWeightsTensor := [1, 1]
    numVectors := [0]
    assignmentLossScale := 1
    detectionLossScale := 1
    klLossScale := 0
    regressionLossScale := 0
    classificationLossScale := 0
    klLosses := []
    regressionLosses := []
    classificationLosses := [] }

/-- A finite one-target, one-event loss input. -/
def lInpFin : LossInput :=
  { symmetricLosses := [[[.fin 3], [.fin 5]]]
    bestIndices := [0]
    eventPermutationGroup := [[0]]
    targetMasks := [[true]]
    balanceParticles := false
    balanceJets := false
    particleIndexTensor := [1]
    particleWeightsTensor := [1, 1]
    jetWeightsTensor := [1]
    numVectors := [0]
    assignmentLossScale := 1
    detectionLossScale := 1
    klLossScale := 0
    regressionLossScale := 0
    classificationLossScale := 0
    klLosses := []
    regressionLosses := []
    classificationLosses := [] }

/-! ### Generic list lemmas -/

theorem le_foldr_max (l : List Nat) : ∀ x ∈ l, x ≤ l.foldr max 0 := by
  induction l with
  | nil => intro x hx; cases hx
  | cons a t ih =>
    intro x hx
    rcases List.mem_cons.mp hx with rfl | hx
    · exact le_max_left _ _
    · exact le_trans (ih x hx) (le_max_right _ _)

theorem foldr_max_mem (l : List Nat) (h : l ≠ []) : l.foldr max 0 ∈ l := by
  induction l with
  | nil => exact absurd rfl h
  | cons a t ih =>
    cases t with
    | nil => simp
    | cons b t' =>
      rcases max_choice a ((b :: t').foldr max 0) with h1 | h1
      · simp only [List.foldr, h1] at *
        exact List.mem_cons_self _ _
      · simp only [List.foldr, h1] at *
        exact List.mem_cons_of_mem _ (ih (by simp))

theorem countP_zip_range {α β : Type} (p : α → β → Bool) (dx : α) (dy : β) :
    ∀ (xs : List α) (ys : List β), xs.length = ys.length →
      (xs.zip ys).countP (fun ab => p ab.1 ab.2) =
        (List.range xs.length).countP (fun j => p (xs.getD j dx) (ys.getD j dy)) := by
  intro xs
  induction xs with
  | nil => intro ys _; simp
  | cons x xs ih =>
    intro ys hlen
    cases ys with
    | nil => simp at hlen
    | cons y ys =>
      have hlen' : xs.length = ys.length := by simpa using hlen
      simp only [List.zip_cons_cons, List.countP_cons, List.length_cons,
        List.range_succ_eq_map, List.countP_map]
      rw [ih ys hlen']
      simp [Function.comp_def, Nat.add_comm]

theorem list_ext_getD {α : Type} (d : α) :
    ∀ (l₁ l₂ : List α), l₁.length = l₂.length →
      (∀ k, l₁.getD k d = l₂.getD k d) → l₁ = l₂ := by
  intro l₁
  induction l₁ with
  | nil =>
    intro l₂ hlen _
    cases l₂ with
    | nil => rfl
    | cons b t => simp at hlen
  | cons a t ih =>
    intro l₂ hlen hval
    cases l₂ with
    | nil => simp at hlen
    | cons b t' =>
      have h0 := hval 0
      simp only [List.getD_cons_zero] at h0
      subst h0
      have : t = t' := by
        refine ih t' (by simpa using hlen) (fun k => ?_)
        have := hval (k + 1)
        simpa using this
      rw [this]

/-! ### Lookup lemmas for the metrics dictionary -/

theorem lookupKey_append (k : MetricKey) (l₁ l₂ : List (MetricKey × Val)) :
    lookupKey k (l₁ ++ l₂) =
      match lookupKey k l₁ with
      | some v => some v
      | none => lookupKey k l₂ := by
  induction l₁ with
  | nil => simp [lookupKey]
  | cons kv rest ih =>
    by_cases h : kv.1 = k
    · simp [lookupKey, h]
    · simp [lookupKey, h, ih]

theorem lookupKey_none (k : MetricKey) (l : List (MetricKey × Val))
    (h : ∀ kv ∈ l, kv.1 ≠ k) : lookupKey k l = none := by
  induction l with
  | nil => rfl
  | cons kv rest ih =>
    have h1 : kv.1 ≠ k := h kv (List.mem_cons_self _ _)
    simp only [lookupKey, if_neg h1]
    exact ih (fun kv' hkv' => h kv' (List.mem_cons_of_mem _ hkv'))

theorem lookupKey_map_pairs (mk : Nat × Nat → MetricKey) (f : Nat × Nat → Val)
    (hinj : ∀ a b : Nat × Nat, mk a = mk b → a = b) :
    ∀ (l : List (Nat × Nat)) (ij : Nat × Nat), ij ∈ l →
      lookupKey (mk ij) (l.map (fun x => (mk x, f x))) = some (f ij) := by
  intro l
  induction l with
  | nil => intro ij h; cases h
  | cons x xs ih =>
    intro ij hij
    by_cases hx : mk x = mk ij
    · have : x = ij := hinj _ _ hx
      subst this
      simp [lookupKey]
    · have hmem : ij ∈ xs := by
        rcases List.mem_cons.mp hij with rfl | h
        · exact absurd rfl hx
        · exact h
      simp only [List.map_cons, lookupKey, if_neg hx]
      exact ih ij hmem

theorem mem_accuracyPairs (n i j : Nat) :
    (i, j) ∈ accuracyPairs n ↔ 1 ≤ i ∧ i ≤ j ∧ j ≤ n := by
  constructor
  · intro h
    rcases List.mem_flatMap.mp h with ⟨j0, hj0, hmap⟩
    rcases List.mem_map.mp hmap with ⟨i0, hi0, heq⟩
    have h1 : i0 + 1 = i := congrArg Prod.fst heq
    have h2 : j0 + 1 = j := congrArg Prod.snd heq
    have hj0' : j0 < n := List.mem_range.mp hj0
    have hi0' : i0 < j0 + 1 := List.mem_range.mp hi0
    omega
  · intro ⟨h1, h2, h3⟩
    refine List.mem_flatMap.mpr ⟨j - 1, List.mem_range.mpr (by omega), ?_⟩
    refine List.mem_map.mpr ⟨i - 1, List.mem_range.mpr (by omega), ?_⟩
    simp only [Prod.mk.injEq]
    omega

/-! ### C1: best-permutation search in `compute_metrics` -/

/-- C1: for every batch, `compute_metrics` performs a search over every
permutation in the event permutation group: for each permutation it counts,
per event, the number of targets whose full jet-assignment row exactly equals
the permuted target row (third conjunct, stated as an explicit filter over
target indices), and the per-event jet accuracy it reports (`jetBest`, i.e.
`jet_accuracies.max(0)`) is the maximum of this count over all permutations in
the group: it is attained by a permutation of the group (second conjunct) and
is at least the count obtained under any single fixed permutation (first
conjunct). -/
theorem claim1_best_permutation_search (inp : MetricsInput) (b : Nat)
    (hne : inp.eventPermutationGroup ≠ []) :
    (∀ perm ∈ inp.eventPermutationGroup, jetAccCount inp perm b ≤ jetBest inp b) ∧
    (∃ perm ∈ inp.eventPermutationGroup, jetBest inp b = jetAccCount inp perm b) ∧
    (∀ perm : List Nat, perm.length = inp.jetPredictions.length →
      jetAccCount inp perm b =
        ((List.range perm.length).filter (fun j =>
          decide ((inp.jetPredictions.getD j []).getD b [] =
            (inp.stackedTargets.getD (perm.getD j 0) []).getD b []))).length) := by
  refine ⟨?_, ?_, ?_⟩
  · intro perm hperm
    exact le_foldr_max _ _ (List.mem_map.mpr ⟨perm, hperm, rfl⟩)
  · have hne' : jetAccCounts inp b ≠ [] := by
      simpa [jetAccCounts] using hne
    have hmem := foldr_max_mem _ hne'
    rcases List.mem_map.mp hmem with ⟨perm, hperm, heq⟩
    exact ⟨perm, hperm, heq.symm⟩
  · intro perm hlen
    rw [← List.countP_eq_length_filter]
    have hlen' : inp.jetPredictions.length =
        (perm.map (fun p => inp.stackedTargets.getD p [])).length := by
      simp [hlen]
    have := countP_zip_range
      (fun (x : List (List Int)) (y : List (List Int)) => decide (x.getD b [] = y.getD b []))
      [] [] inp.jetPredictions (perm.map (fun p => inp.stackedTargets.getD p [])) hlen'
    rw [jetAccCount, this, ← hlen]
    apply List.countP_congr
    intro j hj
    have hjlt : j < perm.length := List.mem_range.mp hj
    have hgetD : (perm.map (fun p => inp.stackedTargets.getD p [])).getD j [] =
        inp.stackedTargets.getD (perm.getD j 0) [] := by
      have h1 : (perm.map (fun p => inp.stackedTargets.getD p []))[j]? =
          Option.map (fun p => inp.stackedTargets.getD p []) perm[j]? :=
        List.getElem?_map _ _ _
      rcases List.getElem?_eq_getElem hjlt with h2
      simp [List.getD_eq_getElem?_getD, h1, h2]
    rw [hgetD]

/-! ### C8: threshold of the binary particle prediction -/

/-- C8: in `compute_metrics` the binary particle prediction is
`particle_scores >= 0.5`, so a particle score exactly equal to `0.5` is
classified as a positive (detected) prediction. -/
theorem claim8_half_score_is_positive (inp : MetricsInput) (j b : Nat)
    (hj : j < inp.particleScores.length)
    (hb : b < (inp.particleScores.getD j []).length)
    (hs : (inp.particleScores.getD j []).getD b 0 = 1/2) :
    ((particlePredictions inp).getD j []).getD b false = true := by
  have hrow : (particlePredictions inp).getD j [] =
      (inp.particleScores.getD j []).map (fun s => decide ((1 : ℚ)/2 ≤ s)) := by
    have h1 : (particlePredictions inp)[j]? =
        Option.map (fun row => row.map (fun s => decide ((1 : ℚ)/2 ≤ s)))
          inp.particleScores[j]? := List.getElem?_map _ _ _
    rcases List.getElem?_eq_getElem hj with h2
    simp [particlePredictions, List.getD_eq_getElem?_getD, h1, h2]
  set r := inp.particleScores.getD j [] with hrdef
  rw [hrow]
  have h2 : r[b]? = some r[b] := List.getElem?_eq_getElem hb
  have h3 : r[b] = (1 : ℚ)/2 := by
    rw [List.getD_eq_getElem?_getD, h2] at hs
    simpa using hs
  rw [List.getD_eq_getElem?_getD, List.getElem?_map, h2]
  simp [h3]

/-! ### Evaluating the metric dictionary entries -/

theorem meanBool_map_decide (P : Nat → Prop) [DecidablePred P] (l : List Nat) :
    meanBool (l.map (fun b => decide (P b))) =
      if l = [] then Val.nan
      else Val.num (((l.filter (fun b => decide (P b))).length : ℚ) / (l.length : ℚ)) := by
  simp only [meanBool, List.length_map, List.countP_map]
  have hc : List.countP ((fun x => x) ∘ fun b => decide (P b)) l =
      (l.filter (fun b => decide (P b))).length := by
    rw [← List.countP_eq_length_filter]
    rfl
  rw [hc]
  by_cases h : l.length = 0
  · rw [if_pos h, if_pos (List.length_eq_zero.mp h)]
  · rw [if_neg h, if_neg (fun hl => h (by simp [hl]))]

theorem jetAcc_lookup (inp : MetricsInput) (i j : Nat)
    (h1 : 1 ≤ i) (h2 : i ≤ j) (h3 : j ≤ numTargets inp) :
    lookupKey (MetricKey.jetAccuracy i j) (jetAccuracyEntries inp) =
      some (jetAccMetricVal inp i j) := by
  exact lookupKey_map_pairs (fun ij => MetricKey.jetAccuracy ij.1 ij.2)
    (fun ij => jetAccMetricVal inp ij.1 ij.2)
    (fun a b h => by
      cases a; cases b
      simpa [MetricKey.jetAccuracy.injEq, Prod.mk.injEq] using h)
    _ (i, j) ((mem_accuracyPairs _ i j).mpr ⟨h1, h2, h3⟩)

theorem particleAcc_lookup (inp : MetricsInput) (i j : Nat)
    (h1 : 1 ≤ i) (h2 : i ≤ j) (h3 : j ≤ numTargets inp) :
    lookupKey (MetricKey.particleAccuracy i j) (particleAccuracyEntries inp) =
      some (particleAccMetricVal inp i j) := by
  exact lookupKey_map_pairs (fun ij => MetricKey.particleAccuracy ij.1 ij.2)
    (fun ij => particleAccMetricVal inp ij.1 ij.2)
    (fun a b h => by
      cases a; cases b
      simpa [MetricKey.particleAccuracy.injEq, Prod.mk.injEq] using h)
    _ (i, j) ((mem_accuracyPairs _ i j).mpr ⟨h1, h2, h3⟩)

theorem jetAccuracyEntries_keys (inp : MetricsInput) :
    ∀ kv ∈ jetAccuracyEntries inp, ∃ a b : Nat, kv.1 = MetricKey.jetAccuracy a b := by
  intro kv hkv
  rcases List.mem_map.mp hkv with ⟨ij, _, rfl⟩
  exact ⟨ij.1, ij.2, rfl⟩

theorem particleAccuracyEntries_keys (inp : MetricsInput) :
    ∀ kv ∈ particleAccuracyEntries inp, ∃ a b : Nat, kv.1 = MetricKey.particleAccuracy a b := by
  intro kv hkv
  rcases List.mem_map.mp hkv with ⟨ij, _, rfl⟩
  exact ⟨ij.1, ij.2, rfl⟩

theorem particleMetricEntries_keys (inp : MetricsInput) :
    ∀ kv ∈ particleMetricEntries inp, ∃ s : String, kv.1 = MetricKey.particleMetric s := by
  intro kv hkv
  simp only [particleMetricEntries, List.mem_cons, List.not_mem_nil, or_false] at hkv
  rcases hkv with rfl | rfl | rfl | rfl
  · exact ⟨"accuracy", rfl⟩
  · exact ⟨"sensitivity", rfl⟩
  · exact ⟨"specificity", rfl⟩
  · exact ⟨"f_score", rfl⟩

/-- The dictionary built by `compute_metrics` before the
`validation_accuracy` entry is added. -/
theorem computeMetrics_eq (inp : MetricsInput) (hn : 1 ≤ numTargets inp) :
    computeMetrics inp =
      some ((jetAccuracyEntries inp ++ particleAccuracyEntries inp ++ particleMetricEntries inp)
        ++ [(MetricKey.validationAccuracy, jetAccMetricVal inp (numTargets inp) (numTargets inp))]) := by
  have hjet := jetAcc_lookup inp (numTargets inp) (numTargets inp) hn le_rfl le_rfl
  have hbase : lookupKey (MetricKey.jetAccuracy (numTargets inp) (numTargets inp))
      (jetAccuracyEntries inp ++ particleAccuracyEntries inp ++ particleMetricEntries inp) =
      some (jetAccMetricVal inp (numTargets inp) (numTargets inp)) := by
    rw [lookupKey_append, lookupKey_append, hjet]
  simp only [computeMetrics]
  rw [hbase]

theorem lookup_base_jet (inp : MetricsInput) (i j : Nat)
    (h1 : 1 ≤ i) (h2 : i ≤ j) (h3 : j ≤ numTargets inp) :
    lookupKey (MetricKey.jetAccuracy i j)
      (jetAccuracyEntries inp ++ particleAccuracyEntries inp ++ particleMetricEntries inp) =
      some (jetAccMetricVal inp i j) := by
  rw [lookupKey_append, lookupKey_append, jetAcc_lookup inp i j h1 h2 h3]

theorem lookup_base_particleAcc (inp : MetricsInput) (i j : Nat)
    (h1 : 1 ≤ i) (h2 : i ≤ j) (h3 : j ≤ numTargets inp) :
    lookupKey (MetricKey.particleAccuracy i j)
      (jetAccuracyEntries inp ++ particleAccuracyEntries inp ++ particleMetricEntries inp) =
      some (particleAccMetricVal inp i j) := by
  have hnone : lookupKey (MetricKey.particleAccuracy i j) (jetAccuracyEntries inp) = none := by
    refine lookupKey_none _ _ (fun kv hkv => ?_)
    rcases jetAccuracyEntries_keys inp kv hkv with ⟨a, b, hab⟩
    simp [hab]
  rw [lookupKey_append, lookupKey_append, hnone, particleAcc_lookup inp i j h1 h2 h3]

theorem lookup_base_particleMetric (inp : MetricsInput) (s : String) (v : Val)
    (h : lookupKey (MetricKey.particleMetric s) (particleMetricEntries inp) = some v) :
    lookupKey (MetricKey.particleMetric s)
      (jetAccuracyEntries inp ++ particleAccuracyEntries inp ++ particleMetricEntries inp) =
      some v := by
  have hnone1 : lookupKey (MetricKey.particleMetric s) (jetAccuracyEntries inp) = none := by
    refine lookupKey_none _ _ (fun kv hkv => ?_)
    rcases jetAccuracyEntries_keys inp kv hkv with ⟨a, b, hab⟩
    simp [hab]
  have hnone2 : lookupKey (MetricKey.particleMetric s) (particleAccuracyEntries inp) = none := by
    refine lookupKey_none _ _ (fun kv hkv => ?_)
    rcases particleAccuracyEntries_keys inp kv hkv with ⟨a, b, hab⟩
    simp [hab]
  rw [lookupKey_append, lookupKey_append, hnone1, hnone2, h]

theorem lookup_final_of_base (inp : MetricsInput) (k : MetricKey) (v w : Val)
    (h : lookupKey k
      (jetAccuracyEntries inp ++ particleAccuracyEntries inp ++ particleMetricEntries inp) =
      some v) :
    lookupKey k
      ((jetAccuracyEntries inp ++ particleAccuracyEntries inp ++ particleMetricEntries inp)
        ++ [(MetricKey.validationAccuracy, w)]) = some v := by
  rw [lookupKey_append, h]

/-! ### C5: the `validation_accuracy` entry -/

/-- C5: the metrics dictionary returned by `compute_metrics` contains an entry
`validation_accuracy` equal to the entry `jet/accuracy_{n}_of_{n}` where `n`
is the number of targets, i.e. the fraction of events having all `n` targets
present whose best-permutation jet accuracy reaches `n`. -/
theorem claim5_validation_accuracy (inp : MetricsInput) (hn : 1 ≤ numTargets inp) :
    ∃ m, computeMetrics inp = some m ∧
      lookupKey MetricKey.validationAccuracy m =
        lookupKey (MetricKey.jetAccuracy (numTargets inp) (numTargets inp)) m ∧
      lookupKey MetricKey.validationAccuracy m =
        some (if eventsWithParticles inp (numTargets inp) = [] then Val.nan
          else Val.num ((((eventsWithParticles inp (numTargets inp)).filter
              (fun b => decide (numTargets inp ≤ jetBest inp b))).length : ℚ) /
            ((eventsWithParticles inp (numTargets inp)).length : ℚ))) := by
  refine ⟨_, computeMetrics_eq inp hn, ?_, ?_⟩
  · have hbase := lookup_base_jet inp (numTargets inp) (numTargets inp) hn le_rfl le_rfl
    have hnoneV : lookupKey MetricKey.validationAccuracy
        (jetAccuracyEntries inp ++ particleAccuracyEntries inp ++ particleMetricEntries inp) =
        none := by
      refine lookupKey_none _ _ (fun kv hkv => ?_)
      rcases List.mem_append.mp hkv with h' | h'
      · rcases List.mem_append.mp h' with h'' | h''
        · rcases jetAccuracyEntries_keys inp kv h'' with ⟨a, b, hab⟩
          simp [hab]
        · rcases particleAccuracyEntries_keys inp kv h'' with ⟨a, b, hab⟩
          simp [hab]
      · rcases particleMetricEntries_keys inp kv h' with ⟨s, hs⟩
        simp [hs]
    rw [lookupKey_append, hnoneV, lookup_final_of_base inp _ _ _ hbase]
    simp [lookupKey]
  · have hnoneV : lookupKey MetricKey.validationAccuracy
        (jetAccuracyEntries inp ++ particleAccuracyEntries inp ++ particleMetricEntries inp) =
        none := by
      refine lookupKey_none _ _ (fun kv hkv => ?_)
      rcases List.mem_append.mp hkv with h' | h'
      · rcases List.mem_append.mp h' with h'' | h''
        · rcases jetAccuracyEntries_keys inp kv h'' with ⟨a, b, hab⟩
          simp [hab]
        · rcases particleAccuracyEntries_keys inp kv h'' with ⟨a, b, hab⟩
          simp [hab]
      · rcases particleMetricEntries_keys inp kv h' with ⟨s, hs⟩
        simp [hs]
    rw [lookupKey_append, hnoneV]
    rw [jetAccMetricVal, meanBool_map_decide (fun b => numTargets inp ≤ jetBest inp b)]
    simp [lookupKey]

/-! ### C7: the full accuracy-bin and particle-metric dictionary -/

theorem particleMetric_inner_lookup (inp : MetricsInput) :
    lookupKey (MetricKey.particleMetric "accuracy") (particleMetricEntries inp) =
      some (accuracy_score (flatPermutedMasks inp) (flatParticlePredictions inp)) ∧
    lookupKey (MetricKey.particleMetric "sensitivity") (particleMetricEntries inp) =
      some (recall_score (flatPermutedMasks inp) (flatParticlePredictions inp)) ∧
    lookupKey (MetricKey.particleMetric "specificity") (particleMetricEntries inp) =
      some (specificity_score (flatPermutedMasks inp) (flatParticlePredictions inp)) ∧
    lookupKey (MetricKey.particleMetric "f_score") (particleMetricEntries inp) =
      some (f1_score (flatPermutedMasks inp) (flatParticlePredictions inp)) := by
  refine ⟨?_, ?_, ?_, ?_⟩ <;> simp [particleMetricEntries, lookupKey]

/-- C7: for every batch with `n` targets, `compute_metrics` produces an entry
`jet/accuracy_i_of_j` and an entry `particle/accuracy_i_of_j` for every pair
`1 <= i <= j <= n`, each equal to the fraction, among events with exactly `j`
present targets, of events whose best-permutation accuracy count is at least
`i` (NaN when no event has exactly `j` present targets), together with the
four particle-level entries `particle/accuracy`, `particle/sensitivity`,
`particle/specificity` and `particle/f_score` computed over the flattened
permuted masks and thresholded scores. -/
theorem claim7_accuracy_bins_and_particle_metrics (inp : MetricsInput) (i j : Nat)
    (h1 : 1 ≤ i) (h2 : i ≤ j) (h3 : j ≤ numTargets inp) :
    ((computeMetrics inp).bind (lookupKey (MetricKey.jetAccuracy i j)) =
      some (if eventsWithParticles inp j = [] then Val.nan
        else Val.num ((((eventsWithParticles inp j).filter
            (fun b => decide (i ≤ jetBest inp b))).length : ℚ) /
          ((eventsWithParticles inp j).length : ℚ)))) ∧
    ((computeMetrics inp).bind (lookupKey (MetricKey.particleAccuracy i j)) =
      some (if eventsWithParticles inp j = [] then Val.nan
        else Val.num ((((eventsWithParticles inp j).filter
            (fun b => decide (i ≤ particleBest inp b))).length : ℚ) /
          ((eventsWithParticles inp j).length : ℚ)))) ∧
    ((computeMetrics inp).bind (lookupKey (MetricKey.particleMetric "accuracy")) =
      some (accuracy_score (flatPermutedMasks inp) (flatParticlePredictions inp))) ∧
    ((computeMetrics inp).bind (lookupKey (MetricKey.particleMetric "sensitivity")) =
      some (recall_score (flatPermutedMasks inp) (flatParticlePredictions inp))) ∧
    ((computeMetrics inp).bind (lookupKey (MetricKey.particleMetric "specificity")) =
      some (specificity_score (flatPermutedMasks inp) (flatParticlePredictions inp))) ∧
    ((computeMetrics inp).bind (lookupKey (MetricKey.particleMetric "f_score")) =
      some (f1_score (flatPermutedMasks inp) (flatParticlePredictions inp))) := by
  have hn : 1 ≤ numTargets inp := le_trans h1 (le_trans h2 h3)
  rw [computeMetrics_eq inp hn]
  simp only [Option.some_bind]
  rcases particleMetric_inner_lookup inp with ⟨ha, hs, hsp, hf⟩
  refine ⟨?_, ?_, ?_, ?_, ?_, ?_⟩
  · rw [lookup_final_of_base inp _ _ _ (lookup_base_jet inp i j h1 h2 h3)]
    rw [jetAccMetricVal, meanBool_map_decide (fun b => i ≤ jetBest inp b)]
  · rw [lookup_final_of_base inp _ _ _ (lookup_base_particleAcc inp i j h1 h2 h3)]
    rw [particleAccMetricVal, meanBool_map_decide (fun b => i ≤ particleBest inp b)]
  · exact lookup_final_of_base inp _ _ _ (lookup_base_particleMetric inp _ _ ha)
  · exact lookup_final_of_base inp _ _ _ (lookup_base_particleMetric inp _ _ hs)
  · exact lookup_final_of_base inp _ _ _ (lookup_base_particleMetric inp _ _ hsp)
  · exact lookup_final_of_base inp _ _ _ (lookup_base_particleMetric inp _ _ hf)

/-! ### C9: `test_step` delegates to `validation_step` -/

/-- C9: for every batch and batch index, `test_step` returns exactly the
result of `validation_step` applied to the same arguments; the test path is
definitionally equivalent to the validation path. -/
theorem claim9_test_step_is_validation_step (vi : ValidationInput) (batchIdx : Nat) :
    testStep vi batchIdx = validationStep vi batchIdx := rfl

/-! ### C10: NaN metrics are returned but not logged -/

/-- C10: `validation_step` never logs a NaN-valued metric: the logged entries
are exactly the entries of the returned metrics dictionary whose value is not
NaN (first conjunct), every logged entry is non-NaN (second conjunct), and a
NaN-valued entry of the returned dictionary is not logged while remaining in
the returned dictionary (third conjunct). -/
theorem claim10_nan_metrics_not_logged (vi : ValidationInput) (batchIdx : Nat) :
    (validationStepLogs vi batchIdx =
      (validationStep vi batchIdx).map (fun m => m.filter (fun kv => !kv.2.isnan))) ∧
    (∀ kv ∈ (validationStepLogs vi batchIdx).getD [], kv.2.isnan = false) ∧
    (∀ kv ∈ (validationStep vi batchIdx).getD [], kv.2.isnan = true →
      kv ∉ (validationStepLogs vi batchIdx).getD []) := by
  refine ⟨rfl, ?_, ?_⟩
  · intro kv hkv
    cases hstep : validationStep vi batchIdx with
    | none =>
      rw [validationStepLogs, hstep] at hkv
      simp at hkv
    | some m =>
      rw [validationStepLogs, hstep] at hkv
      simp only [Option.map_some', Option.getD_some] at hkv
      have := (List.mem_filter.mp hkv).2
      simpa using this
  · intro kv hkv hnan hmem
    cases hstep : validationStep vi batchIdx with
    | none =>
      rw [validationStepLogs, hstep] at hmem
      simp at hmem
    | some m =>
      rw [validationStepLogs, hstep] at hmem
      simp only [Option.map_some', Option.getD_some] at hmem
      have := (List.mem_filter.mp hmem).2
      rw [hnan] at this
      simp at this

/-! ### Access lemmas for the tensor embedding -/

theorem getD_map_of_lt {α β : Type} (f : α → β) (l : List α) (n : Nat) (d : β) (d' : α)
    (h : n < l.length) : (l.map f).getD n d = f (l.getD n d') := by
  have e := List.getElem?_eq_getElem h
  simp [List.getD_eq_getElem?_getD, List.getElem?_map, e]

theorem getD_zipWith_of_lt {α β γ : Type} (f : α → β → γ) (l₁ : List α) (l₂ : List β)
    (n : Nat) (d₁ : α) (d₂ : β) (d : γ) (h₁ : n < l₁.length) (h₂ : n < l₂.length) :
    (List.zipWith f l₁ l₂).getD n d = f (l₁.getD n d₁) (l₂.getD n d₂) := by
  have e₁ := List.getElem?_eq_getElem h₁
  have e₂ := List.getElem?_eq_getElem h₂
  simp [List.getD_eq_getElem?_getD, List.getElem?_zipWith, e₁, e₂]

theorem getD_range_map {α : Type} (f : Nat → α) (n t : Nat) (d : α) (h : t < n) :
    ((List.range n).map f).getD t d = f t := by
  rw [getD_map_of_lt f _ t d 0 (by simpa using h)]
  congr 1
  have e := List.getElem?_eq_getElem (by simpa using h : t < (List.range n).length)
  simp [List.getD_eq_getElem?_getD, e]

theorem zipWith_eq_range_map {α β γ : Type} (f : α → β → γ) (da : α) (db : β) :
    ∀ (a : List α) (b : List β), a.length = b.length →
      List.zipWith f a b = (List.range a.length).map (fun k => f (a.getD k da) (b.getD k db)) := by
  intro a
  induction a with
  | nil => intro b _; simp
  | cons x xs ih =>
    intro b hlen
    cases b with
    | nil => simp at hlen
    | cons y ys =>
      have hlen' : xs.length = ys.length := by simpa using hlen
      simp only [List.zipWith_cons_cons, List.length_cons, List.range_succ_eq_map,
        List.map_cons, List.getD_cons_zero, List.map_map]
      rw [ih ys hlen']
      congr 1

/-! ### The weight tensor of `compute_validation_losses` -/

theorem length_onesLike (xs : List (List (List RVal))) : (onesLike xs).length = xs.length := by
  simp [onesLike]

theorem onesLike_row (xs : List (List (List RVal))) (t : Nat) (ht : t < xs.length) :
    (onesLike xs).getD t [] = (xs.getD t []).map (fun row => row.map (fun _ => (1 : ℚ))) := by
  unfold onesLike
  rw [getD_map_of_lt _ _ t [] [] ht]

theorem length_mulBroadcast (w : List (List (List ℚ))) (f : List ℚ) :
    (mulBroadcast w f).length = w.length := by
  simp [mulBroadcast]

theorem mulBroadcast_row (w : List (List (List ℚ))) (f : List ℚ) (t : Nat) (ht : t < w.length) :
    (mulBroadcast w f).getD t [] =
      (w.getD t []).map (fun row => List.zipWith (fun a c => a * c) row f) := by
  unfold mulBroadcast
  rw [getD_map_of_lt _ _ t [] [] ht]

theorem onesLike_row_length (xs : List (List (List RVal))) (t : Nat) (ht : t < xs.length) :
    ((onesLike xs).getD t []).length = (xs.getD t []).length := by
  rw [onesLike_row _ t ht]
  simp

theorem mulBroadcast_row_length (w : List (List (List ℚ))) (f : List ℚ) (t : Nat)
    (ht : t < w.length) :
    ((mulBroadcast w f).getD t []).length = (w.getD t []).length := by
  rw [mulBroadcast_row _ _ t ht]
  simp

theorem lossWeights_eq_cases (inp : LossInput) :
    lossWeights inp =
      if inp.balanceParticles then
        (if inp.balanceJets then
          mulBroadcast (mulBroadcast (onesLike inp.symmetricLosses) (particleFactors inp))
            (jetFactors inp)
         else mulBroadcast (onesLike inp.symmetricLosses) (particleFactors inp))
      else
        (if inp.balanceJets then
          mulBroadcast (onesLike inp.symmetricLosses) (jetFactors inp)
         else onesLike inp.symmetricLosses) := by
  cases hp : inp.balanceParticles <;> cases hj : inp.balanceJets <;> simp [lossWeights, hp, hj]

theorem length_lossWeights (inp : LossInput) :
    (lossWeights inp).length = inp.symmetricLosses.length := by
  rw [lossWeights_eq_cases]
  cases hp : inp.balanceParticles <;> cases hj : inp.balanceJets <;>
    simp [hp, hj, length_mulBroadcast, length_onesLike]

theorem lossWeights_row_length (inp : LossInput) (t : Nat)
    (ht : t < inp.symmetricLosses.length) :
    ((lossWeights inp).getD t []).length = (inp.symmetricLosses.getD t []).length := by
  rw [lossWeights_eq_cases]
  cases hp : inp.balanceParticles <;> cases hj : inp.balanceJets <;> simp only [hp, hj,
    Bool.false_eq_true, if_false, if_true]
  · rw [onesLike_row_length _ t ht]
  · rw [mulBroadcast_row_length _ _ t (by rw [length_onesLike]; exact ht),
      onesLike_row_length _ t ht]
  · rw [mulBroadcast_row_length _ _ t (by rw [length_onesLike]; exact ht),
      onesLike_row_length _ t ht]
  · rw [mulBroadcast_row_length _ _ t (by
        rw [length_mulBroadcast, length_onesLike]; exact ht),
      mulBroadcast_row_length _ _ t (by rw [length_onesLike]; exact ht),
      onesLike_row_length _ t ht]

theorem lossWeights_entry (inp : LossInput) (t c b : Nat)
    (ht : t < inp.symmetricLosses.length)
    (hc : c < (inp.symmetricLosses.getD t []).length)
    (hb : b < ((inp.symmetricLosses.getD t []).getD c []).length)
    (hB : ((inp.symmetricLosses.getD t []).getD c []).length = inp.bestIndices.length) :
    (((lossWeights inp).getD t []).getD c []).getD b 0 =
      (if inp.balanceParticles then particleFactor inp b else 1) *
      (if inp.balanceJets then jetFactor inp b else 1) := by
  have honesrow : ((onesLike inp.symmetricLosses).getD t []).getD c [] =
      ((inp.symmetricLosses.getD t []).getD c []).map (fun _ => (1 : ℚ)) := by
    rw [onesLike_row _ t ht, getD_map_of_lt _ _ c [] [] hc]
  have honeslen : (((onesLike inp.symmetricLosses).getD t []).getD c []).length =
      inp.bestIndices.length := by
    rw [honesrow]
    simpa using hB
  have honesentry : (((onesLike inp.symmetricLosses).getD t []).getD c []).getD b 0 = 1 := by
    rw [honesrow, getD_map_of_lt _ _ b 0 (RVal.fin 0) hb]
  have hpfl : (particleFactors inp).length = inp.bestIndices.length := by
    simp [particleFactors]
  have hjfl : (jetFactors inp).length = inp.bestIndices.length := by
    simp [jetFactors]
  have hbB : b < inp.bestIndices.length := hB ▸ hb
  have hpfe : (particleFactors inp).getD b 0 = particleFactor inp b := by
    unfold particleFactors
    exact getD_range_map _ _ b 0 hbB
  have hjfe : (jetFactors inp).getD b 0 = jetFactor inp b := by
    unfold jetFactors
    exact getD_range_map _ _ b 0 hbB
  rw [lossWeights_eq_cases]
  cases hp : inp.balanceParticles <;> cases hj : inp.balanceJets <;> simp only [hp, hj,
    Bool.false_eq_true, if_false, if_true]
  · rw [honesentry]
    norm_num
  · rw [mulBroadcast_row _ _ t (by rw [length_onesLike]; exact ht),
      getD_map_of_lt _ _ c [] [] (by rw [onesLike_row_length _ t ht]; exact hc),
      getD_zipWith_of_lt _ _ _ b 0 0 0 (by rw [honeslen]; exact hbB) (by rw [hjfl]; exact hbB),
      honesentry, hjfe]
  · rw [mulBroadcast_row _ _ t (by rw [length_onesLike]; exact ht),
      getD_map_of_lt _ _ c [] [] (by rw [onesLike_row_length _ t ht]; exact hc),
      getD_zipWith_of_lt _ _ _ b 0 0 0 (by rw [honeslen]; exact hbB) (by rw [hpfl]; exact hbB),
      honesentry, hpfe]
    norm_num
  · have hw1len : ((((mulBroadcast (onesLike inp.symmetricLosses) (particleFactors inp)).getD
        t []).getD c [])).length = inp.bestIndices.length := by
      rw [mulBroadcast_row _ _ t (by rw [length_onesLike]; exact ht),
        getD_map_of_lt _ _ c [] [] (by rw [onesLike_row_length _ t ht]; exact hc)]
      rw [List.length_zipWith, honeslen, hpfl]
      exact Nat.min_self _
    have hw1entry : ((((mulBroadcast (onesLike inp.symmetricLosses)
        (particleFactors inp)).getD t []).getD c [])).getD b 0 = particleFactor inp b := by
      rw [mulBroadcast_row _ _ t (by rw [length_onesLike]; exact ht),
        getD_map_of_lt _ _ c [] [] (by rw [onesLike_row_length _ t ht]; exact hc),
        getD_zipWith_of_lt _ _ _ b 0 0 0 (by rw [honeslen]; exact hbB) (by rw [hpfl]; exact hbB),
        honesentry, hpfe]
      norm_num
    rw [mulBroadcast_row _ _ t (by
        rw [length_mulBroadcast, length_onesLike]; exact ht),
      getD_map_of_lt _ _ c [] [] (by
        rw [mulBroadcast_row_length _ _ t (by rw [length_onesLike]; exact ht),
          onesLike_row_length _ t ht]
        exact hc),
      getD_zipWith_of_lt _ _ _ b 0 0 0 (by rw [hw1len]; exact hbB) (by rw [hjfl]; exact hbB),
      hw1entry, hjfe]

theorem lossWeights_inner_length (inp : LossInput) (t c : Nat)
    (ht : t < inp.symmetricLosses.length)
    (hc : c < (inp.symmetricLosses.getD t []).length)
    (hB : ((inp.symmetricLosses.getD t []).getD c []).length = inp.bestIndices.length) :
    (((lossWeights inp).getD t []).getD c []).length = inp.bestIndices.length := by
  have honeslen : (((onesLike inp.symmetricLosses).getD t []).getD c []).length =
      inp.bestIndices.length := by
    rw [onesLike_row _ t ht, getD_map_of_lt _ _ c [] [] hc]
    simpa using hB
  have hpfl : (particleFactors inp).length = inp.bestIndices.length := by
    simp [particleFactors]
  have hjfl : (jetFactors inp).length = inp.bestIndices.length := by
    simp [jetFactors]
  rw [lossWeights_eq_cases]
  cases hp : inp.balanceParticles <;> cases hj : inp.balanceJets <;> simp only [hp, hj,
    Bool.false_eq_true, if_false, if_true]
  · exact honeslen
  · rw [mulBroadcast_row _ _ t (by rw [length_onesLike]; exact ht),
      getD_map_of_lt _ _ c [] [] (by rw [onesLike_row_length _ t ht]; exact hc),
      List.length_zipWith, honeslen, hjfl]
    exact Nat.min_self _
  · rw [mulBroadcast_row _ _ t (by rw [length_onesLike]; exact ht),
      getD_map_of_lt _ _ c [] [] (by rw [onesLike_row_length _ t ht]; exact hc),
      List.length_zipWith, honeslen, hpfl]
    exact Nat.min_self _
  · have hw1len : ((((mulBroadcast (onesLike inp.symmetricLosses) (particleFactors inp)).getD
        t []).getD c [])).length = inp.bestIndices.length := by
      rw [mulBroadcast_row _ _ t (by rw [length_onesLike]; exact ht),
        getD_map_of_lt _ _ c [] [] (by rw [onesLike_row_length _ t ht]; exact hc),
        List.length_zipWith, honeslen, hpfl]
      exact Nat.min_self _
    rw [mulBroadcast_row _ _ t (by
        rw [length_mulBroadcast, length_onesLike]; exact ht),
      getD_map_of_lt _ _ c [] [] (by
        rw [mulBroadcast_row_length _ _ t (by rw [length_onesLike]; exact ht),
          onesLike_row_length _ t ht]
        exact hc),
      List.length_zipWith, hw1len, hjfl]
    exact Nat.min_self _

theorem length_weightedSums (inp : LossInput) :
    (weightedSums inp).length = inp.symmetricLosses.length := by
  unfold weightedSums
  rw [List.length_zipWith, length_lossWeights]
  exact Nat.min_self _

theorem length_permutedLossMasks (inp : LossInput) :
    (permutedLossMasks inp).length = inp.targetMasks.length := by
  simp [permutedLossMasks]

theorem length_maskDenoms (inp : LossInput) :
    (maskDenoms inp).length = inp.targetMasks.length := by
  rw [maskDenoms, List.length_map, length_permutedLossMasks]

/-! ### C3: weighted average of the symmetric losses -/

/-- C3: in `compute_validation_losses`, for every target (and each of the two
loss channels) the aggregated per-target loss equals the elementwise product
of the event weights and the symmetric losses summed over events, divided by
the number of events whose permuted mask is set, with that denominator
clamped below at `1`; when neither `balance_particles` nor `balance_jets` is
enabled every event weight equals `1`. -/
theorem claim3_weighted_loss_aggregation (inp : LossInput) (t c : Nat)
    (hT : inp.symmetricLosses.length = inp.targetMasks.length)
    (ht : t < inp.targetMasks.length)
    (hc : c < (inp.symmetricLosses.getD t []).length)
    (hB : ((inp.symmetricLosses.getD t []).getD c []).length = inp.bestIndices.length) :
    (((aggregatedLosses inp).getD t []).getD c RVal.nan =
      RVal.divNat
        (sumR ((List.range inp.bestIndices.length).map (fun b =>
          RVal.mulQ
            ((if inp.balanceParticles then particleFactor inp b else 1) *
             (if inp.balanceJets then jetFactor inp b else 1))
            (((inp.symmetricLosses.getD t []).getD c []).getD b (RVal.fin 0)))))
        (max (((permutedLossMasks inp).getD t []).countP (fun x => x)) 1)) ∧
    (inp.balanceParticles = false → inp.balanceJets = false →
      ∀ b, b < inp.bestIndices.length →
        (((lossWeights inp).getD t []).getD c []).getD b 0 = 1) := by
  have htS : t < inp.symmetricLosses.length := by rw [hT]; exact ht
  constructor
  · have hwsT : t < (weightedSums inp).length := by rw [length_weightedSums]; exact htS
    have hmdT : t < (maskDenoms inp).length := by rw [length_maskDenoms]; exact ht
    have hwsRow : (weightedSums inp).getD t [] =
        List.zipWith (fun w l => sumR (List.zipWith RVal.mulQ w l))
          ((lossWeights inp).getD t []) (inp.symmetricLosses.getD t []) := by
      unfold weightedSums
      rw [getD_zipWith_of_lt _ _ _ t [] [] []
        (by rw [length_lossWeights]; exact htS) htS]
    have hwsRowLen : c < ((weightedSums inp).getD t []).length := by
      rw [hwsRow, List.length_zipWith, lossWeights_row_length inp t htS, Nat.min_self]
      exact hc
    have hstep1 : ((aggregatedLosses inp).getD t []).getD c RVal.nan =
        RVal.divNat (((weightedSums inp).getD t []).getD c (RVal.fin 0))
          ((maskDenoms inp).getD t 1) := by
      unfold aggregatedLosses
      rw [getD_zipWith_of_lt _ _ _ t [] 1 [] hwsT hmdT,
        getD_map_of_lt _ _ c RVal.nan (RVal.fin 0) hwsRowLen]
    have hstep2 : ((weightedSums inp).getD t []).getD c (RVal.fin 0) =
        sumR (List.zipWith RVal.mulQ (((lossWeights inp).getD t []).getD c [])
          ((inp.symmetricLosses.getD t []).getD c [])) := by
      rw [hwsRow, getD_zipWith_of_lt _ _ _ c [] [] (RVal.fin 0)
        (by rw [lossWeights_row_length inp t htS]; exact hc) hc]
    have hstep3 : List.zipWith RVal.mulQ (((lossWeights inp).getD t []).getD c [])
        ((inp.symmetricLosses.getD t []).getD c []) =
        (List.range inp.bestIndices.length).map (fun b =>
          RVal.mulQ
            ((if inp.balanceParticles then particleFactor inp b else 1) *
             (if inp.balanceJets then jetFactor inp b else 1))
            (((inp.symmetricLosses.getD t []).getD c []).getD b (RVal.fin 0))) := by
      rw [zipWith_eq_range_map RVal.mulQ 0 (RVal.fin 0) _ _
        (by rw [lossWeights_inner_length inp t c htS hc hB, hB]),
        lossWeights_inner_length inp t c htS hc hB]
      refine List.map_congr_left (fun b hb => ?_)
      have hbB : b < inp.bestIndices.length := List.mem_range.mp hb
      rw [lossWeights_entry inp t c b htS hc (by rw [hB]; exact hbB) hB]
    have hstep4 : (maskDenoms inp).getD t 1 =
        max (((permutedLossMasks inp).getD t []).countP (fun x => x)) 1 := by
      unfold maskDenoms
      rw [getD_map_of_lt _ _ t 1 [] (by rw [length_permutedLossMasks]; exact ht)]
    rw [hstep1, hstep2, hstep3, hstep4]
  · intro hp hj b hbB
    rw [lossWeights_entry inp t c b htS hc (by rw [hB]; exact hbB) hB, hp, hj]
    norm_num

/-! ### C2: the divergence checks of `compute_validation_losses` -/

/-- C2 (amended): `compute_validation_losses` raises a `ValueError` exactly
when the aggregated per-target assignment loss contains a non-finite value:
it raises with message `"Assignment loss has diverged!"` exactly when some
assignment-loss entry is NaN, and with message
`"Assignment targets contain a collision."` exactly when some entry is
infinite and no entry is NaN (the NaN check runs first, so a NaN entry takes
precedence over an infinite one). -/
theorem claim2_value_error_characterisation (inp : LossInput) :
    ((∃ msg, computeValidationLosses inp = Except.error (PyError.valueError msg)) ↔
      ((assignmentLoss inp).any RVal.isnan = true ∨
       (assignmentLoss inp).any RVal.isinf = true)) ∧
    (computeValidationLosses inp =
        Except.error (PyError.valueError "Assignment loss has diverged!") ↔
      (assignmentLoss inp).any RVal.isnan = true) ∧
    (computeValidationLosses inp =
        Except.error (PyError.valueError "Assignment targets contain a collision.") ↔
      ((assignmentLoss inp).any RVal.isinf = true ∧
       (assignmentLoss inp).any RVal.isnan = false)) := by
  have hmsg : ("Assignment loss has diverged!" : String) ≠
      "Assignment targets contain a collision." := by decide
  by_cases h1 : (assignmentLoss inp).any RVal.isnan = true
  · have e : computeValidationLosses inp =
        Except.error (PyError.valueError "Assignment loss has diverged!") := by
      simp only [computeValidationLosses]
      rw [if_pos h1]
    rw [e]
    refine ⟨⟨fun _ => Or.inl h1, fun _ => ⟨_, rfl⟩⟩, ⟨fun _ => h1, fun _ => rfl⟩, ?_⟩
    constructor
    · intro h
      exact absurd (by injection h with h'; injection h' with h'') hmsg
    · intro ⟨_, hn⟩
      rw [h1] at hn
      cases hn
  · have h1' : (assignmentLoss inp).any RVal.isnan = false := by
      cases hx : (assignmentLoss inp).any RVal.isnan
      · rfl
      · exact absurd hx h1
    by_cases h2 : (assignmentLoss inp).any RVal.isinf = true
    · have e : computeValidationLosses inp =
          Except.error (PyError.valueError "Assignment targets contain a collision.") := by
        simp only [computeValidationLosses]
        rw [if_neg h1, if_pos h2]
      rw [e]
      refine ⟨⟨fun _ => Or.inr h2, fun _ => ⟨_, rfl⟩⟩, ?_, ⟨fun _ => ⟨h2, h1'⟩, fun _ => rfl⟩⟩
      constructor
      · intro h
        exact absurd (by injection h with h'; injection h' with h'') hmsg.symm
      · intro hn
        exact absurd hn h1
    · have hok : computeValidationLosses inp =
          (if (totalLossComponents inp).isEmpty then
            Except.error (PyError.runtimeError "torch.cat(): expected a non-empty list of Tensors")
          else Except.ok (meanR (totalLossComponents inp).flatten)) := by
        simp only [computeValidationLosses]
        rw [if_neg h1, if_neg h2]
      have hne : ∀ msg, computeValidationLosses inp ≠ Except.error (PyError.valueError msg) := by
        intro msg
        rw [hok]
        by_cases h3 : (totalLossComponents inp).isEmpty
        · rw [if_pos h3]
          intro h
          injection h with h'
          injection h'
        · rw [if_neg h3]
          intro h
          injection h
      refine ⟨?_, ?_, ?_⟩
      · constructor
        · intro ⟨msg, hmsg'⟩
          exact absurd hmsg' (hne msg)
        · intro h
          rcases h with h | h
          · exact absurd h h1
          · exact absurd h h2
      · constructor
        · intro h
          exact absurd h (hne _)
        · intro h
          exact absurd h h1
      · constructor
        · intro h
          exact absurd h (hne _)
        · intro ⟨h, _⟩
          exact absurd h h2

/-- C2 counterexample: on an input whose aggregated assignment loss is
`[NaN, +inf]`, some assignment-loss entry is infinite, yet the raised error is
`"Assignment loss has diverged!"` and not
`"Assignment targets contain a collision."` — refuting the claim that the
collision message is raised whenever some entry is infinite. -/
theorem claim2_counterexample :
    (assignmentLoss lInpNanInf).any RVal.isinf = true ∧
    computeValidationLosses lInpNanInf ≠
      Except.error (PyError.valueError "Assignment targets contain a collision.") ∧
    computeValidationLosses lInpNanInf =
      Except.error (PyError.valueError "Assignment loss has diverged!") := by
  have e3 : computeValidationLosses lInpNanInf =
      Except.error (PyError.valueError "Assignment loss has diverged!") := rfl
  refine ⟨by decide, ?_, e3⟩
  rw [e3]
  intro h
  injection h with h'
  injection h' with h''
  exact absurd h'' (by decide)

/-! ### C6: the enabled loss components and the returned mean -/

theorem totalLossComponents_eq_filter (inp : LossInput) :
    totalLossComponents inp =
      (([(inp.assignmentLossScale, assignmentLoss inp),
         (inp.detectionLossScale, detectionLoss inp),
         (inp.klLossScale, inp.klLosses),
         (inp.regressionLossScale, inp.regressionLosses),
         (inp.classificationLossScale, inp.classificationLosses)].filter
        (fun sc => decide (0 < sc.1))).map (fun sc => sc.2)) := by
  unfold totalLossComponents add_kl_loss add_regression_loss add_classification_loss
  by_cases ha : 0 < inp.assignmentLossScale <;>
    by_cases hd : 0 < inp.detectionLossScale <;>
    by_cases hk : 0 < inp.klLossScale <;>
    by_cases hr : 0 < inp.regressionLossScale <;>
    by_cases hcl : 0 < inp.classificationLossScale <;>
    simp [ha, hd, hk, hr, hcl, List.filter]

/-- C6: the value returned by `compute_validation_losses` is the mean of the
concatenation of exactly those loss components whose corresponding scale
option is positive: the assignment loss is included iff
`assignment_loss_scale > 0`, the detection loss iff
`detection_loss_scale > 0`, and the KL, regression and classification losses
are appended iff their respective scales are positive (provided the
assignment loss is finite, so no `ValueError` is raised, and at least one
component is enabled, so `torch.cat` does not raise). -/
theorem claim6_mean_of_enabled_components (inp : LossInput)
    (hnan : (assignmentLoss inp).any RVal.isnan = false)
    (hinf : (assignmentLoss inp).any RVal.isinf = false)
    (hsel : ([(inp.assignmentLossScale, assignmentLoss inp),
         (inp.detectionLossScale, detectionLoss inp),
         (inp.klLossScale, inp.klLosses),
         (inp.regressionLossScale, inp.regressionLosses),
         (inp.classificationLossScale, inp.classificationLosses)].filter
        (fun sc => decide (0 < sc.1))) ≠ []) :
    computeValidationLosses inp =
      Except.ok (meanR ((([(inp.assignmentLossScale, assignmentLoss inp),
         (inp.detectionLossScale, detectionLoss inp),
         (inp.klLossScale, inp.klLosses),
         (inp.regressionLossScale, inp.regressionLosses),
         (inp.classificationLossScale, inp.classificationLosses)].filter
        (fun sc => decide (0 < sc.1))).map (fun sc => sc.2)).flatten)) := by
  have hmapne : (([(inp.assignmentLossScale, assignmentLoss inp),
       (inp.detectionLossScale, detectionLoss inp),
       (inp.klLossScale, inp.klLosses),
       (inp.regressionLossScale, inp.regressionLosses),
       (inp.classificationLossScale, inp.classificationLosses)].filter
      (fun sc => decide (0 < sc.1))).map (fun sc => sc.2)) ≠ [] := by
    intro h
    exact hsel (List.map_eq_nil_iff.mp h)
  have hempty : (totalLossComponents inp).isEmpty = false := by
    rw [totalLossComponents_eq_filter]
    cases hx : (([(inp.assignmentLossScale, assignmentLoss inp),
       (inp.detectionLossScale, detectionLoss inp),
       (inp.klLossScale, inp.klLosses),
       (inp.regressionLossScale, inp.regressionLosses),
       (inp.classificationLossScale, inp.classificationLosses)].filter
      (fun sc => decide (0 < sc.1))).map (fun sc => sc.2)) with
    | nil => exact absurd hx hmapne
    | cons x xs => rfl
  simp only [computeValidationLosses]
  rw [if_neg (by rw [hnan]; exact Bool.false_ne_true),
    if_neg (by rw [hinf]; exact Bool.false_ne_true),
    if_neg (by rw [hempty]; exact Bool.false_ne_true),
    totalLossComponents_eq_filter]

/-! ### Row-level lemmas for the sorting phase of `validation_step` -/

theorem getD_eq_default_of_le {α : Type} (l : List α) (k : Nat) (d : α)
    (h : l.length ≤ k) : l.getD k d = d := by
  have e : l[k]? = none := List.getElem?_eq_none h
  simp [List.getD_eq_getElem?_getD, e]

theorem getD_set {α : Type} (l : List α) (i k : Nat) (v d : α) :
    (l.set i v).getD k d = if i = k ∧ i < l.length then v else l.getD k d := by
  by_cases hik : i = k
  · subst hik
    by_cases hlt : i < l.length
    · rw [if_pos ⟨rfl, hlt⟩]
      have e := List.getElem?_set_self (l := l) (a := v) hlt
      simp [List.getD_eq_getElem?_getD, e]
    · rw [if_neg (fun h => hlt h.2), List.set_eq_of_length_le (Nat.le_of_not_lt hlt)]
  · rw [if_neg (fun h => hik h.1)]
    have e := List.getElem?_set_ne (l := l) (a := v) hik
    simp [List.getD_eq_getElem?_getD, e]

theorem length_scatterRow (row : List Int) (idxs : List Nat) (vals : List Int) :
    (scatterRow row idxs vals).length = row.length := by
  unfold scatterRow
  generalize (idxs.zip vals) = ps
  induction ps generalizing row with
  | nil => rfl
  | cons p ps ih =>
    simp only [List.foldl_cons]
    rw [ih (row.set p.1 p.2), List.length_set]

theorem getD_scatterRow_not_mem (row : List Int) (idxs : List Nat) (vals : List Int)
    (k : Nat) (d : Int) (hk : k ∉ idxs) :
    (scatterRow row idxs vals).getD k d = row.getD k d := by
  unfold scatterRow
  have hps : ∀ p ∈ idxs.zip vals, p.1 ≠ k := by
    intro p hp he
    exact hk (he ▸ (List.of_mem_zip hp).1)
  generalize (idxs.zip vals) = ps at hps
  induction ps generalizing row with
  | nil => rfl
  | cons p ps ih =>
    simp only [List.foldl_cons]
    rw [ih (row.set p.1 p.2) (fun q hq => hps q (List.mem_cons_of_mem _ hq))]
    rw [getD_set, if_neg (fun h => hps p (List.mem_cons_self _ _) h.1)]

theorem getD_scatterRow_congr (r₁ r₂ : List Int) (idxs : List Nat) (vals : List Int)
    (k : Nat) (d : Int) (hlen : r₁.length = r₂.length) (hval : r₁.getD k d = r₂.getD k d) :
    (scatterRow r₁ idxs vals).getD k d = (scatterRow r₂ idxs vals).getD k d := by
  unfold scatterRow
  generalize (idxs.zip vals) = ps
  induction ps generalizing r₁ r₂ with
  | nil => exact hval
  | cons p ps ih =>
    simp only [List.foldl_cons]
    refine ih (r₁.set p.1 p.2) (r₂.set p.1 p.2) (by simp [hlen]) ?_
    rw [getD_set, getD_set, hlen]
    by_cases h : p.1 = k ∧ p.1 < r₂.length
    · rw [if_pos h, if_pos h]
    · rw [if_neg h, if_neg h]
      exact hval

theorem gatherRow_scatterRow (idxs : List Nat) :
    ∀ (vals : List Int) (row : List Int), idxs.Nodup → (∀ i ∈ idxs, i < row.length) →
      vals.length = idxs.length →
      gatherRow idxs (scatterRow row idxs vals) = vals := by
  induction idxs with
  | nil =>
    intro vals row _ _ hvl
    cases vals with
    | nil => rfl
    | cons v vs => simp at hvl
  | cons i is ih =>
    intro vals row hnodup hbound hvl
    cases vals with
    | nil => simp at hvl
    | cons v vs =>
      have hstep : scatterRow row (i :: is) (v :: vs) = scatterRow (row.set i v) is vs := by
        simp [scatterRow]
      have hni : i ∉ is := (List.nodup_cons.mp hnodup).1
      have hiB : i < row.length := hbound i (List.mem_cons_self _ _)
      rw [hstep]
      show (scatterRow (row.set i v) is vs).getD i 0 ::
        gatherRow is (scatterRow (row.set i v) is vs) = v :: vs
      congr 1
      · rw [getD_scatterRow_not_mem _ _ _ _ _ hni, getD_set, if_pos ⟨rfl, hiB⟩]
      · exact ih vs (row.set i v) (List.nodup_cons.mp hnodup).2
          (fun j hj => by rw [List.length_set]; exact hbound j (List.mem_cons_of_mem _ hj))
          (by simpa using hvl)

theorem scatterRow_congr_off (g : List Nat) :
    ∀ (vals : List Int) (r₁ r₂ : List Int), g.Nodup → (∀ i ∈ g, i < r₁.length) →
      r₁.length = r₂.length → (∀ k, k ∉ g → r₁.getD k 0 = r₂.getD k 0) →
      vals.length = g.length →
      scatterRow r₁ g vals = scatterRow r₂ g vals := by
  induction g with
  | nil =>
    intro vals r₁ r₂ _ _ hlen hoff _
    show r₁ = r₂
    exact list_ext_getD 0 r₁ r₂ hlen (fun k => hoff k (List.not_mem_nil _))
  | cons i is ih =>
    intro vals r₁ r₂ hnodup hbound hlen hoff hvl
    cases vals with
    | nil => simp at hvl
    | cons v vs =>
      have hstep1 : scatterRow r₁ (i :: is) (v :: vs) = scatterRow (r₁.set i v) is vs := by
        simp [scatterRow]
      have hstep2 : scatterRow r₂ (i :: is) (v :: vs) = scatterRow (r₂.set i v) is vs := by
        simp [scatterRow]
      rw [hstep1, hstep2]
      have hiB : i < r₁.length := hbound i (List.mem_cons_self _ _)
      refine ih vs (r₁.set i v) (r₂.set i v) (List.nodup_cons.mp hnodup).2
        (fun j hj => by rw [List.length_set]; exact hbound j (List.mem_cons_of_mem _ hj))
        (by simp [hlen]) ?_ (by simpa using hvl)
      intro k hk
      rw [getD_set, getD_set, hlen]
      by_cases h : i = k ∧ i < r₂.length
      · rw [if_pos h, if_pos h]
      · rw [if_neg h, if_neg h]
        exact hoff k (fun hmem => by
          rcases List.mem_cons.mp hmem with rfl | hmem'
          · exact h ⟨rfl, hlen ▸ hiB⟩
          · exact hk hmem')

theorem sortColumns_eq_of_perm (g : List Nat) (r r' : List Int)
    (hnodup : g.Nodup) (hbound : ∀ i ∈ g, i < r.length) (hlen : r'.length = r.length)
    (hoff : ∀ k, k ∉ g → r'.getD k 0 = r.getD k 0)
    (hperm : List.Perm (gatherRow g r') (gatherRow g r)) :
    sortColumns g r' = sortColumns g r := by
  have hsorteq : List.insertionSort (fun a b : Int => a ≤ b) (gatherRow g r') =
      List.insertionSort (fun a b : Int => a ≤ b) (gatherRow g r) := by
    refine List.eq_of_perm_of_sorted ?_ (List.sorted_insertionSort _ _)
      (List.sorted_insertionSort _ _)
    exact (List.perm_insertionSort _ _).trans (hperm.trans (List.perm_insertionSort _ _).symm)
  unfold sortColumns
  rw [hsorteq]
  refine scatterRow_congr_off g _ r' r hnodup
    (fun i hi => by rw [hlen]; exact hbound i hi) hlen hoff ?_
  rw [List.length_insertionSort]
  simp [gatherRow]

theorem sortColumns_off_preserved (h g : List Nat) (hdisj : DisjointIdx h g)
    (r r' : List Int) (hlen : r'.length = r.length)
    (hoff : ∀ k, k ∉ g → r'.getD k 0 = r.getD k 0)
    (hperm : List.Perm (gatherRow g r') (gatherRow g r)) :
    (sortColumns h r').length = r.length ∧ (sortColumns h r).length = r.length ∧
    (∀ k, k ∉ g → (sortColumns h r').getD k 0 = (sortColumns h r).getD k 0) ∧
    List.Perm (gatherRow g (sortColumns h r')) (gatherRow g (sortColumns h r)) := by
  have hgather : gatherRow h r' = gatherRow h r := by
    unfold gatherRow
    exact List.map_congr_left (fun i hi => hoff i (hdisj i hi))
  have hg' : gatherRow g (sortColumns h r') = gatherRow g r' := by
    unfold gatherRow sortColumns
    exact List.map_congr_left (fun i hi =>
      getD_scatterRow_not_mem _ _ _ _ _ (fun hih => hdisj i hih hi))
  have hg : gatherRow g (sortColumns h r) = gatherRow g r := by
    unfold gatherRow sortColumns
    exact List.map_congr_left (fun i hi =>
      getD_scatterRow_not_mem _ _ _ _ _ (fun hih => hdisj i hih hi))
  refine ⟨?_, ?_, ?_, ?_⟩
  · rw [sortColumns, length_scatterRow, hlen]
  · rw [sortColumns, length_scatterRow]
  · intro k hk
    unfold sortColumns
    rw [hgather]
    exact getD_scatterRow_congr r' r h _ k 0 (by rw [hlen]) (hoff k hk)
  · rw [hg', hg]
    exact hperm

theorem length_applyGroupsRow :
    ∀ (groups : List (List Nat)) (row : List Int),
      (applyGroupsRow groups row).length = row.length := by
  intro groups
  induction groups with
  | nil => intro row; rfl
  | cons a t ih =>
    intro row
    have hstep : applyGroupsRow (a :: t) row =
        applyGroupsRow t (if 1 < a.length then sortColumns a row else row) := rfl
    rw [hstep, ih]
    by_cases hl : 1 < a.length
    · rw [if_pos hl, sortColumns, length_scatterRow]
    · rw [if_neg hl]

theorem applyGroupsRow_off_preserved (g : List Nat) :
    ∀ (pre : List (List Nat)) (r r' : List Int),
      (∀ a ∈ pre, DisjointIdx a g) → r'.length = r.length →
      (∀ k, k ∉ g → r'.getD k 0 = r.getD k 0) →
      List.Perm (gatherRow g r') (gatherRow g r) →
      (applyGroupsRow pre r').length = r.length ∧
      (applyGroupsRow pre r).length = r.length ∧
      (∀ k, k ∉ g → (applyGroupsRow pre r').getD k 0 = (applyGroupsRow pre r).getD k 0) ∧
      List.Perm (gatherRow g (applyGroupsRow pre r')) (gatherRow g (applyGroupsRow pre r)) := by
  intro pre
  induction pre with
  | nil =>
    intro r r' _ hlen hoff hperm
    exact ⟨hlen, rfl, hoff, hperm⟩
  | cons a pre' ih =>
    intro r r' hdisj hlen hoff hperm
    have hda : DisjointIdx a g := hdisj a (List.mem_cons_self _ _)
    have hstep : ∀ row, applyGroupsRow (a :: pre') row =
        applyGroupsRow pre' (if 1 < a.length then sortColumns a row else row) := fun _ => rfl
    by_cases hl : 1 < a.length
    · obtain ⟨l1, l2, o, p⟩ := sortColumns_off_preserved a g hda r r' hlen hoff hperm
      obtain ⟨m1, m2, o', p'⟩ := ih (sortColumns a r) (sortColumns a r')
        (fun b hb => hdisj b (List.mem_cons_of_mem _ hb)) (l1.trans l2.symm) o p
      rw [hstep r, hstep r']
      simp only [if_pos hl]
      exact ⟨m1.trans l2, m2.trans l2, o', p'⟩
    · rw [hstep r, hstep r']
      simp only [if_neg hl]
      exact ih r r' (fun b hb => hdisj b (List.mem_cons_of_mem _ hb)) hlen hoff hperm

theorem gatherRow_applyGroupsRow_const (g : List Nat) :
    ∀ (post : List (List Nat)) (row : List Int),
      (∀ b ∈ post, DisjointIdx g b) →
      gatherRow g (applyGroupsRow post row) = gatherRow g row := by
  intro post
  induction post with
  | nil => intro row _; rfl
  | cons b t ih =>
    intro row hdisj
    have hstep : applyGroupsRow (b :: t) row =
        applyGroupsRow t (if 1 < b.length then sortColumns b row else row) := rfl
    rw [hstep, ih _ (fun c hc => hdisj c (List.mem_cons_of_mem _ hc))]
    by_cases hl : 1 < b.length
    · rw [if_pos hl]
      unfold gatherRow sortColumns
      exact List.map_congr_left (fun i hi =>
        getD_scatterRow_not_mem _ _ _ _ _
          (fun hib => hdisj b (List.mem_cons_self _ _) i hi hib))
    · rw [if_neg hl]

theorem applyGroupsRow_eq_of_group_perm (groups : List (List Nat)) (g : List Nat)
    (hmem : g ∈ groups) (hglen : 1 < g.length) (hnodup : g.Nodup)
    (hpair : groups.Pairwise DisjointIdx)
    (r r' : List Int) (hbound : ∀ i ∈ g, i < r.length)
    (hlen : r'.length = r.length)
    (hoff : ∀ k, k ∉ g → r'.getD k 0 = r.getD k 0)
    (hperm : List.Perm (gatherRow g r') (gatherRow g r)) :
    applyGroupsRow groups r' = applyGroupsRow groups r := by
  obtain ⟨pre, post, rfl⟩ := List.append_of_mem hmem
  have hpa := List.pairwise_append.mp hpair
  have hpre : ∀ a ∈ pre, DisjointIdx a g :=
    fun a ha => hpa.2.2 a ha g (List.mem_cons_self _ _)
  obtain ⟨l1, l2, hoff', hperm'⟩ :=
    applyGroupsRow_off_preserved g pre r r' hpre hlen hoff hperm
  have hsplit : ∀ row : List Int, applyGroupsRow (pre ++ g :: post) row =
      applyGroupsRow post
        (if 1 < g.length then sortColumns g (applyGroupsRow pre row)
         else applyGroupsRow pre row) := by
    intro row
    unfold applyGroupsRow
    rw [List.foldl_append]
    rfl
  rw [hsplit r, hsplit r']
  simp only [if_pos hglen]
  congr 1
  exact sortColumns_eq_of_perm g (applyGroupsRow pre r) (applyGroupsRow pre r') hnodup
    (fun i hi => by rw [length_applyGroupsRow]; exact hbound i hi)
    (l1.trans l2.symm) hoff' hperm'

theorem applyGroupsRow_sorted (groups : List (List Nat)) (g : List Nat)
    (hmem : g ∈ groups) (hglen : 1 < g.length) (hnodup : g.Nodup)
    (hpair : groups.Pairwise DisjointIdx)
    (row : List Int) (hbound : ∀ i ∈ g, i < row.length) :
    List.Sorted (fun a b : Int => a ≤ b) (gatherRow g (applyGroupsRow groups row)) := by
  obtain ⟨pre, post, rfl⟩ := List.append_of_mem hmem
  have hpa := List.pairwise_append.mp hpair
  have hpost : ∀ b ∈ post, DisjointIdx g b := (List.pairwise_cons.mp hpa.2.1).1
  have hsplit : applyGroupsRow (pre ++ g :: post) row =
      applyGroupsRow post
        (if 1 < g.length then sortColumns g (applyGroupsRow pre row)
         else applyGroupsRow pre row) := by
    unfold applyGroupsRow
    rw [List.foldl_append]
    rfl
  rw [hsplit, if_pos hglen, gatherRow_applyGroupsRow_const g post _ hpost, sortColumns,
    gatherRow_scatterRow g _ _ hnodup
      (fun i hi => by rw [length_applyGroupsRow]; exact hbound i hi)
      (by rw [List.length_insertionSort]; simp [gatherRow])]
  exact List.sorted_insertionSort _ _

theorem applyGroupsRow_eq_of_bounded_perm (groups : List (List Nat)) (g : List Nat)
    (hmem : g ∈ groups) (hglen : 1 < g.length) (hnodup : g.Nodup)
    (hpair : groups.Pairwise DisjointIdx) (r r' : List Int)
    (hbound : ∀ i ∈ g, i < r.length) (hlen : r'.length = r.length)
    (hoffb : ∀ k, k < r.length → k ∉ g → r'.getD k 0 = r.getD k 0)
    (hperm : List.Perm (gatherRow g r') (gatherRow g r)) :
    applyGroupsRow groups r' = applyGroupsRow groups r := by
  refine applyGroupsRow_eq_of_group_perm groups g hmem hglen hnodup hpair r r' hbound hlen
    (fun k hk => ?_) hperm
  by_cases hklt : k < r.length
  · exact hoffb k hklt hk
  · rw [getD_eq_default_of_le _ _ _ (by rw [hlen]; exact Nat.le_of_not_lt hklt),
      getD_eq_default_of_le _ _ _ (Nat.le_of_not_lt hklt)]

theorem map_applyGroupsRow_eq (groups : List (List Nat)) (g : List Nat)
    (hmem : g ∈ groups) (hglen : 1 < g.length) (hnodup : g.Nodup)
    (hpair : groups.Pairwise DisjointIdx) :
    ∀ (mat mat' : List (List Int)),
      List.Forall₂ (fun r r' : List Int =>
        r'.length = r.length ∧ (∀ i ∈ g, i < r.length) ∧
        (∀ k, k < r.length → k ∉ g → r'.getD k 0 = r.getD k 0) ∧
        List.Perm (gatherRow g r') (gatherRow g r)) mat mat' →
      mat'.map (applyGroupsRow groups) = mat.map (applyGroupsRow groups) := by
  intro mat mat' hf
  induction hf with
  | nil => rfl
  | cons hr _ ih =>
    obtain ⟨hlen, hbound, hoffb, hperm⟩ := hr
    simp only [List.map_cons]
    rw [ih]
    congr 1
    exact applyGroupsRow_eq_of_bounded_perm groups g hmem hglen hnodup hpair _ _
      hbound hlen hoffb hperm

theorem sortTransform_eq_of_group_perm (groups : List (List Nat)) (g : List Nat)
    (hmem : g ∈ groups) (hglen : 1 < g.length) (hnodup : g.Nodup)
    (hpair : groups.Pairwise DisjointIdx) :
    ∀ (pre : List (List (List Int))) (gpt : List (List (List Nat)))
      (mat mat' : List (List Int)) (post : List (List (List Int))),
      pre.length < gpt.length → gpt.getD pre.length [] = groups →
      List.Forall₂ (fun r r' : List Int =>
        r'.length = r.length ∧ (∀ i ∈ g, i < r.length) ∧
        (∀ k, k < r.length → k ∉ g → r'.getD k 0 = r.getD k 0) ∧
        List.Perm (gatherRow g r') (gatherRow g r)) mat mat' →
      sortTransform (pre ++ mat' :: post) gpt = sortTransform (pre ++ mat :: post) gpt := by
  intro pre
  induction pre with
  | nil =>
    intro gpt mat mat' post hlt hg hf
    cases gpt with
    | nil => simp at hlt
    | cons gs rest =>
      have hgs : gs = groups := by simpa using hg
      subst hgs
      show mat'.map (applyGroupsRow gs) :: sortTransform post rest =
        mat.map (applyGroupsRow gs) :: sortTransform post rest
      rw [map_applyGroupsRow_eq gs g hmem hglen hnodup hpair mat mat' hf]
  | cons p pre' ih =>
    intro gpt mat mat' post hlt hg hf
    cases gpt with
    | nil => simp at hlt
    | cons gs rest =>
      show p.map (applyGroupsRow gs) :: sortTransform (pre' ++ mat' :: post) rest =
        p.map (applyGroupsRow gs) :: sortTransform (pre' ++ mat :: post) rest
      rw [ih rest mat mat' post (by simpa using hlt) (by simpa using hg) hf]

/-! ### C4: within-target symmetric-group sorting -/

/-- C4: before metrics are computed, `validation_step` resolves within-target
label ambiguity.  Let the prediction target `pre.length` have a decoder
permutation-index group `g` of size greater than one, and the true-jet target
`tpre.length` a group `gT` of size greater than one (each target's listed
groups pairwise disjoint, in-bounds and duplicate-free).  Let the alternative
predictions `mat'` differ from `mat` only by permuting, per event row, the
predicted jets at the columns of `g`, and the alternative targets `tmat'`
differ from `tmat` only by permuting, per event row, the true jets at the
columns of `gT` (either permutation may be the identity, so each side is
covered on its own).  Then the sorting phase maps the permuted prediction and
target arrays to the same arrays as the originals (first and second
conjuncts), the subsequently computed metrics are invariant (third conjunct),
and after the sorting phase the columns at the indices of `g` (predictions)
and `gT` (targets) are in ascending order for every row (fourth and fifth
conjuncts). -/
theorem claim4_sorted_symmetric_groups (vi vi' : ValidationInput)
    (pre : List (List (List Int))) (mat mat' : List (List Int))
    (post : List (List (List Int))) (g : List Nat) (groups : List (List Nat))
    (tpre : List (List (List Int))) (tmat tmat' : List (List Int))
    (tpost : List (List (List Int))) (gT : List Nat) (groupsT : List (List Nat))
    (hvi' : vi' = { vi with
      jetPredictions := pre ++ mat' :: post
      stackedTargets := tpre ++ tmat' :: tpost })
    (hvi : vi.jetPredictions = pre ++ mat :: post)
    (hviT : vi.stackedTargets = tpre ++ tmat :: tpost)
    (hlen : pre.length < vi.permutationIndices.length)
    (hgroups : vi.permutationIndices.getD pre.length [] = groups)
    (hmem : g ∈ groups) (hglen : 1 < g.length) (hnodup : g.Nodup)
    (hpair : groups.Pairwise DisjointIdx)
    (hmat : List.Forall₂ (fun r r' : List Int =>
      r'.length = r.length ∧ (∀ i ∈ g, i < r.length) ∧
      (∀ k, k < r.length → k ∉ g → r'.getD k 0 = r.getD k 0) ∧
      List.Perm (gatherRow g r') (gatherRow g r)) mat mat')
    (hlenT : tpre.length < vi.permutationIndices.length)
    (hgroupsT : vi.permutationIndices.getD tpre.length [] = groupsT)
    (hmemT : gT ∈ groupsT) (hglenT : 1 < gT.length) (hnodupT : gT.Nodup)
    (hpairT : groupsT.Pairwise DisjointIdx)
    (hmatT : List.Forall₂ (fun r r' : List Int =>
      r'.length = r.length ∧ (∀ i ∈ gT, i < r.length) ∧
      (∀ k, k < r.length → k ∉ gT → r'.getD k 0 = r.getD k 0) ∧
      List.Perm (gatherRow gT r') (gatherRow gT r)) tmat tmat') :
    sortTransform (pre ++ mat' :: post) vi.permutationIndices =
      sortTransform (pre ++ mat :: post) vi.permutationIndices ∧
    sortTransform (tpre ++ tmat' :: tpost) vi.permutationIndices =
      sortTransform (tpre ++ tmat :: tpost) vi.permutationIndices ∧
    (∀ batchIdx, validationStep vi' batchIdx = validationStep vi batchIdx) ∧
    (∀ row : List Int, (∀ i ∈ g, i < row.length) →
      List.Sorted (fun a b : Int => a ≤ b) (gatherRow g (applyGroupsRow groups row))) ∧
    (∀ row : List Int, (∀ i ∈ gT, i < row.length) →
      List.Sorted (fun a b : Int => a ≤ b) (gatherRow gT (applyGroupsRow groupsT row))) := by
  have hST := sortTransform_eq_of_group_perm groups g hmem hglen hnodup hpair
    pre vi.permutationIndices mat mat' post hlen hgroups hmat
  have hSTT := sortTransform_eq_of_group_perm groupsT gT hmemT hglenT hnodupT hpairT
    tpre vi.permutationIndices tmat tmat' tpost hlenT hgroupsT hmatT
  refine ⟨hST, hSTT, ?_, ?_, ?_⟩
  · intro batchIdx
    subst hvi'
    show (computeMetrics
        { eventPermutationGroup := vi.eventPermutationGroup
          jetPredictions := sortTransform (pre ++ mat' :: post) vi.permutationIndices
          particleScores := vi.particleScores
          stackedTargets := sortTransform (tpre ++ tmat' :: tpost) vi.permutationIndices
          stackedMasks := vi.stackedMasks }).map
        (fun m => (vi.purityMetrics.map (fun kv => (MetricKey.purity kv.1, kv.2))) ++ m) =
      validationStep vi batchIdx
    rw [hST, hSTT, ← hvi, ← hviT]
    rfl
  · intro row hbound
    exact applyGroupsRow_sorted groups g hmem hglen hnodup hpair row hbound
  · intro row hbound
    exact applyGroupsRow_sorted groupsT gT hmemT hglenT hnodupT hpairT row hbound

/-! ### Witnesses: each claim theorem with hypotheses evaluated at a concrete
input -/

/-- Witness for C1 at the one-target batch `mInp1` and event `0`. -/
theorem claim1_witness :
    mInp1.eventPermutationGroup ≠ [] ∧
    ((∀ perm ∈ mInp1.eventPermutationGroup, jetAccCount mInp1 perm 0 ≤ jetBest mInp1 0) ∧
     (∃ perm ∈ mInp1.eventPermutationGroup, jetBest mInp1 0 = jetAccCount mInp1 perm 0) ∧
     (∀ perm : List Nat, perm.length = mInp1.jetPredictions.length →
       jetAccCount mInp1 perm 0 =
         ((List.range perm.length).filter (fun j =>
           decide ((mInp1.jetPredictions.getD j []).getD 0 [] =
             (mInp1.stackedTargets.getD (perm.getD j 0) []).getD 0 []))).length)) :=
  ⟨by decide, claim1_best_permutation_search mInp1 0 (by decide)⟩

/-- Witness for C8 at the particle score `0.5` of `mInp1`. -/
theorem claim8_witness :
    (0 < mInp1.particleScores.length ∧
     0 < (mInp1.particleScores.getD 0 []).length ∧
     (mInp1.particleScores.getD 0 []).getD 0 0 = 1/2) ∧
    ((particlePredictions mInp1).getD 0 []).getD 0 false = true :=
  ⟨⟨by decide, by decide, by with_unfolding_all decide⟩,
   claim8_half_score_is_positive mInp1 0 0 (by decide) (by decide)
     (by with_unfolding_all decide)⟩

/-- Witness for C5 at the one-target batch `mInp1`. -/
theorem claim5_witness :
    1 ≤ numTargets mInp1 ∧
    (∃ m, computeMetrics mInp1 = some m ∧
      lookupKey MetricKey.validationAccuracy m =
        lookupKey (MetricKey.jetAccuracy (numTargets mInp1) (numTargets mInp1)) m ∧
      lookupKey MetricKey.validationAccuracy m =
        some (if eventsWithParticles mInp1 (numTargets mInp1) = [] then Val.nan
          else Val.num ((((eventsWithParticles mInp1 (numTargets mInp1)).filter
              (fun b => decide (numTargets mInp1 ≤ jetBest mInp1 b))).length : ℚ) /
            ((eventsWithParticles mInp1 (numTargets mInp1)).length : ℚ)))) :=
  ⟨by decide, claim5_validation_accuracy mInp1 (by decide)⟩

/-- Witness for C7 at the one-target batch `mInp1` with `i = j = 1`. -/
theorem claim7_witness :
    (1 ≤ 1 ∧ 1 ≤ 1 ∧ 1 ≤ numTargets mInp1) ∧
    (((computeMetrics mInp1).bind (lookupKey (MetricKey.jetAccuracy 1 1)) =
      some (if eventsWithParticles mInp1 1 = [] then Val.nan
        else Val.num ((((eventsWithParticles mInp1 1).filter
            (fun b => decide (1 ≤ jetBest mInp1 b))).length : ℚ) /
          ((eventsWithParticles mInp1 1).length : ℚ)))) ∧
    ((computeMetrics mInp1).bind (lookupKey (MetricKey.particleAccuracy 1 1)) =
      some (if eventsWithParticles mInp1 1 = [] then Val.nan
        else Val.num ((((eventsWithParticles mInp1 1).filter
            (fun b => decide (1 ≤ particleBest mInp1 b))).length : ℚ) /
          ((eventsWithParticles mInp1 1).length : ℚ)))) ∧
    ((computeMetrics mInp1).bind (lookupKey (MetricKey.particleMetric "accuracy")) =
      some (accuracy_score (flatPermutedMasks mInp1) (flatParticlePredictions mInp1))) ∧
    ((computeMetrics mInp1).bind (lookupKey (MetricKey.particleMetric "sensitivity")) =
      some (recall_score (flatPermutedMasks mInp1) (flatParticlePredictions mInp1))) ∧
    ((computeMetrics mInp1).bind (lookupKey (MetricKey.particleMetric "specificity")) =
      some (specificity_score (flatPermutedMasks mInp1) (flatParticlePredictions mInp1))) ∧
    ((computeMetrics mInp1).bind (lookupKey (MetricKey.particleMetric "f_score")) =
      some (f1_score (flatPermutedMasks mInp1) (flatParticlePredictions mInp1)))) :=
  ⟨⟨le_rfl, le_rfl, by decide⟩,
   claim7_accuracy_bins_and_particle_metrics mInp1 1 1 le_rfl le_rfl (by decide)⟩

/-- Witness for C3 at the finite loss input `lInpFin`, target `0`,
channel `0`. -/
theorem claim3_witness :
    (lInpFin.symmetricLosses.length = lInpFin.targetMasks.length ∧
     0 < lInpFin.targetMasks.length ∧
     0 < (lInpFin.symmetricLosses.getD 0 []).length ∧
     ((lInpFin.symmetricLosses.getD 0 []).getD 0 []).length = lInpFin.bestIndices.length) ∧
    ((((aggregatedLosses lInpFin).getD 0 []).getD 0 RVal.nan =
      RVal.divNat
        (sumR ((List.range lInpFin.bestIndices.length).map (fun b =>
          RVal.mulQ
            ((if lInpFin.balanceParticles then particleFactor lInpFin b else 1) *
             (if lInpFin.balanceJets then jetFactor lInpFin b else 1))
            (((lInpFin.symmetricLosses.getD 0 []).getD 0 []).getD b (RVal.fin 0)))))
        (max (((permutedLossMasks lInpFin).getD 0 []).countP (fun x => x)) 1)) ∧
    (lInpFin.balanceParticles = false → lInpFin.balanceJets = false →
      ∀ b, b < lInpFin.bestIndices.length →
        (((lossWeights lInpFin).getD 0 []).getD 0 []).getD b 0 = 1)) :=
  ⟨⟨by decide, by decide, by decide, by decide⟩,
   claim3_weighted_loss_aggregation lInpFin 0 0 (by decide) (by decide) (by decide) (by decide)⟩

/-- Witness for C6 at the finite loss input `lInpFin`. -/
theorem claim6_witness :
    ((assignmentLoss lInpFin).any RVal.isnan = false ∧
     (assignmentLoss lInpFin).any RVal.isinf = false ∧
     ([(lInpFin.assignmentLossScale, assignmentLoss lInpFin),
       (lInpFin.detectionLossScale, detectionLoss lInpFin),
       (lInpFin.klLossScale, lInpFin.klLosses),
       (lInpFin.regressionLossScale, lInpFin.regressionLosses),
       (lInpFin.classificationLossScale, lInpFin.classificationLosses)].filter
      (fun sc => decide (0 < sc.1))) ≠ []) ∧
    computeValidationLosses lInpFin =
      Except.ok (meanR ((([(lInpFin.assignmentLossScale, assignmentLoss lInpFin),
         (lInpFin.detectionLossScale, detectionLoss lInpFin),
         (lInpFin.klLossScale, lInpFin.klLosses),
         (lInpFin.regressionLossScale, lInpFin.regressionLosses),
         (lInpFin.classificationLossScale, lInpFin.classificationLosses)].filter
        (fun sc => decide (0 < sc.1))).map (fun sc => sc.2)).flatten)) :=
  ⟨⟨by decide, by decide, by with_unfolding_all decide⟩,
   claim6_mean_of_enabled_components lInpFin (by decide) (by decide)
     (by with_unfolding_all decide)⟩

/-- Witness for C4: swapping the two symmetric jet slots of both the
prediction and the true-jet target of `vSortA` leaves `validation_step`'s
metrics unchanged. -/
theorem claim4_witness :
    (vSortB = { vSortA with
        jetPredictions := [] ++ [[5, 3]] :: []
        stackedTargets := [] ++ [[5, 3]] :: [] } ∧
     vSortA.jetPredictions = [] ++ [[3, 5]] :: [] ∧
     vSortA.stackedTargets = [] ++ [[3, 5]] :: [] ∧
     ([] : List (List (List Int))).length < vSortA.permutationIndices.length ∧
     vSortA.permutationIndices.getD 0 [] = [[0, 1]] ∧
     [0, 1] ∈ ([[0, 1]] : List (List Nat)) ∧
     1 < ([0, 1] : List Nat).length ∧ ([0, 1] : List Nat).Nodup) ∧
    (sortTransform ([] ++ [[5, 3]] :: []) vSortA.permutationIndices =
      sortTransform ([] ++ [[3, 5]] :: []) vSortA.permutationIndices ∧
    sortTransform ([] ++ [[5, 3]] :: []) vSortA.permutationIndices =
      sortTransform ([] ++ [[3, 5]] :: []) vSortA.permutationIndices ∧
    (∀ batchIdx, validationStep vSortB batchIdx = validationStep vSortA batchIdx) ∧
    (∀ row : List Int, (∀ i ∈ ([0, 1] : List Nat), i < row.length) →
      List.Sorted (fun a b : Int => a ≤ b)
        (gatherRow [0, 1] (applyGroupsRow [[0, 1]] row))) ∧
    (∀ row : List Int, (∀ i ∈ ([0, 1] : List Nat), i < row.length) →
      List.Sorted (fun a b : Int => a ≤ b)
        (gatherRow [0, 1] (applyGroupsRow [[0, 1]] row)))) :=
  ⟨⟨by decide, by decide, by decide, by decide, by decide, by decide, by decide, by decide⟩,
   claim4_sorted_symmetric_groups vSortA vSortB
     [] [[3, 5]] [[5, 3]] [] [0, 1] [[0, 1]]
     [] [[3, 5]] [[5, 3]] [] [0, 1] [[0, 1]]
     (by decide) (by decide) (by decide) (by decide) (by decide) (by decide) (by decide)
     (by decide) (List.pairwise_singleton _ _)
     (List.Forall₂.cons
       ⟨by decide, by decide, by decide, by decide⟩
       List.Forall₂.nil)
     (by decide) (by decide) (by decide) (by decide) (by decide)
     (List.pairwise_singleton _ _)
     (List.Forall₂.cons
       ⟨by decide, by decide, by decide, by decide⟩
       List.Forall₂.nil)⟩

/-- Witness for C10 at the two-target batch `vInp1`, whose empty
`num_particles == 1` bin yields the NaN-valued entry `jet/accuracy_1_of_1`:
the entry is in the returned dictionary but not among the logged entries. -/
theorem claim10_witness :
    ((MetricKey.jetAccuracy 1 1, Val.nan) ∈ (validationStep vInp1 0).getD [] ∧
     Val.isnan Val.nan = true) ∧
    (MetricKey.jetAccuracy 1 1, Val.nan) ∉ (validationStepLogs vInp1 0).getD [] :=
  ⟨⟨by with_unfolding_all decide, by decide⟩,
   (claim10_nan_metrics_not_logged vInp1 0).2.2 (MetricKey.jetAccuracy 1 1, Val.nan)
     (by with_unfolding_all decide) (by decide)⟩

end SpanetValidation
